import Mathlib

/-!
Verification of the Rift tree-walking interpreter (scanner, resolver,
evaluator) against its specification.  The Python sources under `src/rift/`
are shallowly embedded: the mutable environment chain and the object heap
become explicit state records threaded through every operation, Python
exceptions (`ReturnException`, `RiftRuntimeError`) become an `Except` layer,
and the possibly nonterminating tree-walk takes a fuel parameter.  Host
(CPython) primitives that the interpreter calls — `str()` on floats and the
Unicode character classes used by the scanner — are modelled explicitly and
documented at their definitions.
-/

namespace Rift

/-- Token kinds, from `tokens.py` (`TokenType`).  Keyword kinds carry a `K`
suffix to avoid clashing with Lean keywords. -/
inductive TokType where
  | leftParen | rightParen | leftBrace | rightBrace
  | comma | dot | minus | plus | semicolon | slash | star | percent
  | bang | bangEqual | equal | equalEqual
  | greater | greaterEqual | less | lessEqual
  | identifier | string | number
  | andK | classK | elseK | falseK | fnK | forK | ifK | letK
  | nilK | orK | printK | returnK | superK | thisK | trueK | whileK
  | eof
deriving DecidableEq, Repr

/-- Literal payload of a token (`Token.literal`): the decoded number for
`NUMBER` (the 64-bit float is abstracted as a rational) or the unescaped
string for `STRING`; absent otherwise. -/
inductive Lit where
  | num (q : Rat)
  | str (s : String)
deriving DecidableEq, Repr

/-- A token, from `tokens.py` (`Token`). -/
structure Token where
  type : TokType
  lexeme : String
  literal : Option Lit
  line : Nat
  column : Nat
deriving DecidableEq, Repr

/-- The reserved-word table `KEYWORDS` from `tokens.py`. -/
def KEYWORDS : List (String × TokType) :=
  [("and", .andK), ("class", .classK), ("else", .elseK), ("false", .falseK),
   ("fn", .fnK), ("for", .forK), ("if", .ifK), ("let", .letK),
   ("nil", .nilK), ("or", .orK), ("print", .printK), ("return", .returnK),
   ("super", .superK), ("this", .thisK), ("true", .trueK), ("while", .whileK)]

/-- Runtime values (`§3 Values`): the tagged union over nil, boolean, number
(64-bit float abstracted as a rational), string, function, class, instance,
and built-in.  Functions, classes and instances live on an explicit heap and
are referenced by allocation index, which models Python object identity. -/
inductive Value where
  | nil
  | bool (b : Bool)
  | num (q : Rat)
  | str (s : String)
  | fn (r : Nat)
  | cls (r : Nat)
  | inst (r : Nat)
  | native (t : Nat)
deriving DecidableEq, Repr

/-- Assignment into a Python `dict`: replace the value at an existing key in
place, else append the new binding. -/
def dictSet {κ α : Type} [DecidableEq κ] : List (κ × α) → κ → α → List (κ × α)
  | [], k, v => [(k, v)]
  | (k0, v0) :: rest, k, v =>
    if k0 = k then (k, v) :: rest else (k0, v0) :: dictSet rest k v

/-- Expressions, from `ast_nodes.py`.  The resolver keys its depth table on
expression identity (`id(expr)` in Python); the name-bearing expression kinds
therefore carry an explicit identity index `eid`, as `spec.md` §9 suggests for
systems-language implementations. -/
inductive Expr where
  | binary (left : Expr) (op : Token) (right : Expr)
  | unary (op : Token) (operand : Expr)
  | lit (value : Value)
  | grouping (e : Expr)
  | variable (name : Token) (eid : Nat)
  | assign (name : Token) (value : Expr) (eid : Nat)
  | logical (left : Expr) (op : Token) (right : Expr)
  | call (callee : Expr) (args : List Expr) (paren : Token)
  | get (obj : Expr) (name : Token)
  | set (obj : Expr) (name : Token) (value : Expr)
  | this (keyword : Token) (eid : Nat)
  | superE (keyword : Token) (method : Token) (eid : Nat)
deriving Repr

mutual
/-- Statements, from `ast_nodes.py`.  A class statement's superclass is a
`VariableExpr`, recorded here as its name token and identity index. -/
inductive Stmt where
  | expression (e : Expr)
  | print (e : Expr)
  | letS (name : Token) (initializer : Option Expr)
  | block (stmts : List Stmt)
  | ifS (cond : Expr) (thenB : Stmt) (elseB : Option Stmt)
  | whileS (cond : Expr) (body : Stmt)
  | function (decl : FuncDecl)
  | returnS (keyword : Token) (value : Option Expr)
  | classS (name : Token) (superclass : Option (Token × Nat)) (methods : List FuncDecl)
deriving Repr
/-- A function declaration (`FunctionStmt`): name, parameters, body. -/
inductive FuncDecl where
  | mk (name : Token) (params : List Token) (body : List Stmt)
deriving Repr
end

def FuncDecl.name : FuncDecl → Token
  | .mk n _ _ => n

def FuncDecl.params : FuncDecl → List Token
  | .mk _ p _ => p

def FuncDecl.body : FuncDecl → List Stmt
  | .mk _ _ b => b

/-- A function value (`RiftFunction`): declaration, captured environment
frame, initializer flag. -/
structure FnObj where
  decl : FuncDecl
  closure : Nat
  isInitializer : Bool

/-- A class value (`RiftClass`): name, optional superclass reference, method
map from name to function reference. -/
structure ClsObj where
  name : String
  superclass : Option Nat
  methods : List (String × Nat)

/-- An instance value (`RiftInstance`): class reference and field map. -/
structure InstObj where
  klass : Nat
  fields : List (String × Value)

/-- One environment frame (`Environment`): a mapping from names to values and
a pointer to the enclosing frame. -/
structure Frame where
  values : List (String × Value)
  enclosing : Option Nat

/-- The evaluator state: the frame heap (frame `0` is the globals frame), the
heaps of function, class and instance objects (allocation index models Python
object identity), the current-environment pointer `env`, the depth side-table
`locals` (`Interpreter._locals`, keyed by expression identity), and the text
printed so far. -/
structure St where
  frames : List Frame
  fns : List FnObj
  clss : List ClsObj
  insts : List InstObj
  env : Nat
  locals : List (Nat × Nat)
  output : List String

/-- Exceptional outcomes of evaluation: `ret` is the `ReturnException`
control-flow mechanism, `rte` a `RiftRuntimeError` carrying its token and
message.  `fault` models a host-level Python exception the interpreter never
catches (a failed `assert`, a `KeyError`, a `ValueError` from a built-in);
none arises on the states the interpreter actually constructs.  `timeout`
marks fuel exhaustion, the embedding's stand-in for nontermination. -/
inductive Exc where
  | ret (v : Value)
  | rte (tok : Token) (msg : String)
  | fault (msg : String)
  | timeout
deriving DecidableEq, Repr

deriving instance DecidableEq for Except

/-- Allocate a fresh frame (`Environment(enclosing)`); returns the new state
and the fresh reference. -/
def allocFrame (s : St) (enc : Option Nat) : St × Nat :=
  ({ s with frames := s.frames ++ [⟨[], enc⟩] }, s.frames.length)

/-- Allocate a function object (`RiftFunction(...)`). -/
def allocFn (s : St) (f : FnObj) : St × Nat :=
  ({ s with fns := s.fns ++ [f] }, s.fns.length)

/-- Allocate a class object (`RiftClass(...)`). -/
def allocCls (s : St) (k : ClsObj) : St × Nat :=
  ({ s with clss := s.clss ++ [k] }, s.clss.length)

/-- Allocate an instance (`RiftInstance(klass)`), with an empty field map. -/
def allocInst (s : St) (klass : Nat) : St × Nat :=
  ({ s with insts := s.insts ++ [⟨klass, []⟩] }, s.insts.length)

/-- Replace frame `r` in the heap. -/
def setFrame (s : St) (r : Nat) (f : Frame) : St :=
  { s with frames := s.frames.set r f }

/-- `Environment.define`: unconditional dictionary assignment in frame `r`.
The missing-frame branch is unreachable on interpreter-built states. -/
def envDefine (s : St) (r : Nat) (n : String) (v : Value) : St :=
  match s.frames.get? r with
  | some f => setFrame s r { f with values := dictSet f.values n v }
  | none => s

/-- `Environment.get`: look up in frame `r`, else recurse into the enclosing
frame, else raise "undefined variable".  The recursion is bounded by an
explicit counter; interpreter-built chains are acyclic (every frame's
enclosing reference precedes it), so the bound `frames.length + 1` used by
`envGet` is never reached. -/
def envGetA : Nat → St → Nat → Token → Except Exc Value
  | 0, _, _, _ => .error (.fault "environment chain cycle")
  | bound+1, s, r, name =>
    match s.frames.get? r with
    | none => .error (.fault "missing frame")
    | some f =>
      match f.values.lookup name.lexeme with
      | some v => .ok v
      | none =>
        match f.enclosing with
        | some e => envGetA bound s e name
        | none => .error (.rte name ("undefined variable \x27" ++ name.lexeme ++ "\x27"))

def envGet (s : St) (r : Nat) (name : Token) : Except Exc Value :=
  envGetA (s.frames.length + 1) s r name

/-- `Environment.assign`: overwrite in the innermost frame of the chain that
already binds the name, else raise "undefined variable". -/
def envAssignA : Nat → St → Nat → Token → Value → Except Exc St
  | 0, _, _, _, _ => .error (.fault "environment chain cycle")
  | bound+1, s, r, name, v =>
    match s.frames.get? r with
    | none => .error (.fault "missing frame")
    | some f =>
      match f.values.lookup name.lexeme with
      | some _ => .ok (setFrame s r { f with values := dictSet f.values name.lexeme v })
      | none =>
        match f.enclosing with
        | some e => envAssignA bound s e name v
        | none => .error (.rte name ("undefined variable \x27" ++ name.lexeme ++ "\x27"))

def envAssign (s : St) (r : Nat) (name : Token) (v : Value) : Except Exc St :=
  envAssignA (s.frames.length + 1) s r name v

/-- `Environment._ancestor`: walk exactly `distance` enclosing links.  `none`
models the failed `assert env.enclosing is not None`. -/
def ancestorA : Nat → St → Nat → Option Nat
  | 0, _, r => some r
  | d+1, s, r =>
    match s.frames.get? r with
    | some f =>
      match f.enclosing with
      | some e => ancestorA d s e
      | none => none
    | none => none

/-- `Environment.get_at`: read `name` in the frame exactly `distance` links
up.  `none` covers both the failed ancestor assert and the `KeyError` of a
missing key, neither of which occurs after a clean resolve. -/
def getAt (s : St) (r : Nat) (distance : Nat) (name : String) : Option Value :=
  match ancestorA distance s r with
  | some a => (s.frames.get? a).bind (fun f => f.values.lookup name)
  | none => none

/-- `Environment.assign_at`: write `name` in the frame exactly `distance`
links up (an unconditional dictionary assignment). -/
def assignAt (s : St) (r : Nat) (distance : Nat) (name : String) (v : Value) : Option St :=
  match ancestorA distance s r with
  | some a =>
    match s.frames.get? a with
    | some f => some (setFrame s a { f with values := dictSet f.values name v })
    | none => none
  | none => none

/-- `RiftClass.find_method`: the class's own method map first, then the
superclass chain.  The recursion counter bounds chain length; classes built
by the evaluator reference strictly earlier classes, so `clss.length + 1`
always suffices. -/
def findMethodA : Nat → St → Nat → String → Option Nat
  | 0, _, _, _ => none
  | bound+1, s, c, n =>
    match s.clss.get? c with
    | none => none
    | some k =>
      match k.methods.lookup n with
      | some f => some f
      | none =>
        match k.superclass with
        | some sup => findMethodA bound s sup n
        | none => none

def findMethod (s : St) (c : Nat) (n : String) : Option Nat :=
  findMethodA (s.clss.length + 1) s c n

/-- `Interpreter._is_truthy`: `None` and `False` are falsy, everything else
(including `0` and the empty string) is truthy. -/
def isTruthy : Value → Bool
  | .nil => false
  | .bool b => b
  | _ => true

/-- `Interpreter._is_equal` delegates to host `==`.  CPython equality is
structural for primitives and identity for `RiftFunction`, `RiftClass`,
`RiftInstance` (no `__eq__` defined), which here is reference equality.  The
mixed boolean/number cases reflect that a Python `bool` is an `int`, so
`1.0 == True` holds on the host.  Each `NativeFunction` exists once, so tag
equality coincides with identity. -/
def isEqual : Value → Value → Bool
  | .nil, .nil => true
  | .bool a, .bool b => a == b
  | .bool a, .num q => (if a then (1 : Rat) else 0) == q
  | .num q, .bool b => q == (if b then (1 : Rat) else 0)
  | .num a, .num b => a == b
  | .str a, .str b => a == b
  | .fn a, .fn b => a == b
  | .cls a, .cls b => a == b
  | .inst a, .inst b => a == b
  | .native a, .native b => a == b
  | _, _ => false

/-- Python float `%`, which our rationals compute exactly:
`a % b = a - b * floor(a / b)` (the result takes the divisor's sign). -/
def pyMod (a b : Rat) : Rat := a - b * (⌊a / b⌋ : Rat)

/-- `Interpreter._check_number_operands`: both operands must be numbers
(Python `bool` is not a `float`, so booleans are rejected too). -/
def checkNumbers (op : Token) : Value → Value → Except Exc (Rat × Rat)
  | .num a, .num b => .ok (a, b)
  | _, _ => .error (.rte op "operands must be numbers")

/-- `Interpreter._eval_binary`.  The fall-through `return None` for token
types no binary expression carries is kept as `.ok .nil`. -/
def evalBinary (op : Token) (left right : Value) : Except Exc Value :=
  match op.type with
  | .plus =>
    match left, right with
    | .num a, .num b => .ok (.num (a + b))
    | .str a, .str b => .ok (.str (a ++ b))
    | _, _ => .error (.rte op "operands must be two numbers or two strings")
  | .minus => (checkNumbers op left right).map (fun p => .num (p.1 - p.2))
  | .star => (checkNumbers op left right).map (fun p => .num (p.1 * p.2))
  | .slash =>
    (checkNumbers op left right).bind (fun p =>
      if p.2 = 0 then .error (.rte op "division by zero")
      else .ok (.num (p.1 / p.2)))
  | .percent =>
    (checkNumbers op left right).bind (fun p =>
      if p.2 = 0 then .error (.rte op "modulo by zero")
      else .ok (.num (pyMod p.1 p.2)))
  | .greater => (checkNumbers op left right).map (fun p => .bool (p.1 > p.2))
  | .greaterEqual => (checkNumbers op left right).map (fun p => .bool (p.1 ≥ p.2))
  | .less => (checkNumbers op left right).map (fun p => .bool (p.1 < p.2))
  | .lessEqual => (checkNumbers op left right).map (fun p => .bool (p.1 ≤ p.2))
  | .equalEqual => .ok (.bool (isEqual left right))
  | .bangEqual => .ok (.bool (!isEqual left right))
  | _ => .ok .nil

/-- Python `text.endswith(".0")`. -/
def endsDot0 (t : String) : Bool :=
  match t.data.reverse with
  | '0' :: '.' :: _ => true
  | _ => false

/-- Python `text[:-2]`. -/
def drop2 (t : String) : String := ⟨t.data.dropLast.dropLast⟩

/-- Host model: CPython `str()` on a 64-bit float whose value is an exact
integer of small magnitude renders as the integer digits followed by `.0`.
Non-integer doubles use the host's shortest-roundtrip decimal, which is not
representable exactly over rationals; the placeholder branch below is never
relied on by any theorem (all concretely printed numbers are integers), and
theorems about non-integer rendering quantify over the representation
instead of consulting this function. -/
def floatRepr (q : Rat) : String :=
  if q.den = 1 then toString q.num ++ ".0"
  else toString q.num ++ "/" ++ toString q.den

/-- `stdlib._stringify`, parameterised by the host float-to-string function
`fstr`.  Functions, classes and instances fall into Python `str(value)`
calling their `__repr__`; the state is consulted for their names. -/
def stringify (fstr : Rat → String) (s : St) : Value → String
  | .nil => "nil"
  | .bool b => if b then "true" else "false"
  | .num q =>
    let text := fstr q
    if endsDot0 text then drop2 text else text
  | .str t => t
  | .fn r =>
    match s.fns.get? r with
    | some f => "<fn " ++ (FuncDecl.name f.decl).lexeme ++ ">"
    | none => "<fn>"
  | .cls r =>
    match s.clss.get? r with
    | some k => "<class " ++ k.name ++ ">"
    | none => "<class>"
  | .inst r =>
    match (s.insts.get? r).bind (fun i => s.clss.get? i.klass) with
    | some k => "<" ++ k.name ++ " instance>"
    | none => "<instance>"
  | .native t =>
    match t with
    | 0 => "<native fn clock>"
    | 1 => "<native fn len>"
    | 2 => "<native fn str>"
    | 3 => "<native fn num>"
    | 4 => "<native fn input>"
    | _ => "<native fn type>"

/-- `NativeFunction.arity` for the six built-ins of `stdlib.py` (tags in
definition order: clock, len, str, num, input, type). -/
def nativeArity (t : Nat) : Nat :=
  if t = 0 then 0 else 1

/-- `stdlib._type_fn`. -/
def typeName (s : St) : Value → String
  | .nil => "nil"
  | .bool _ => "bool"
  | .num _ => "number"
  | .str _ => "string"
  | .inst r =>
    match (s.insts.get? r).bind (fun i => s.clss.get? i.klass) with
    | some k => k.name
    | none => "instance"
  | _ => "function"

/-- The built-in calls of `stdlib.py`.  `len`, `str` and `type` are modelled
in full; a `ValueError` raised by a built-in is uncaught by the driver, hence
`fault`.  `clock` (host wall time), `num` (host float parsing) and `input`
(host standard input) depend on the host environment outside this embedding
and are modelled as fixed benign results; no theorem consults them. -/
def callNative (fstr : Rat → String) (t : Nat) (args : List Value) (s : St) :
    Except Exc Value × St :=
  match t, args with
  | 0, _ => (.ok (.num 0), s)
  | 1, [.str v] => (.ok (.num (v.length : Rat)), s)
  | 1, _ => (.error (.fault "len() argument must be a string"), s)
  | 2, [v] => (.ok (.str (stringify fstr s v)), s)
  | 3, [.str _] => (.ok (.num 0), s)
  | 3, _ => (.error (.fault "num() argument must be a string"), s)
  | 4, [_] => (.ok (.str ""), s)
  | 5, [v] => (.ok (.str (typeName s v)), s)
  | _, _ => (.error (.fault "wrong native arguments"), s)

/-- `RiftFunction.bind`: wrap the method's closure in a fresh frame binding
`"this"` to the instance, and allocate a new function object sharing the
declaration and initializer flag.  The missing-object branch is unreachable
on interpreter-built states. -/
def bindMethod (s : St) (fnRef : Nat) (instRef : Nat) : St × Nat :=
  match s.fns.get? fnRef with
  | none => (s, 0)
  | some fob =>
    let (s1, envRef) := allocFrame s (some fob.closure)
    let s2 := envDefine s1 envRef "this" (.inst instRef)
    allocFn s2 ⟨fob.decl, envRef, fob.isInitializer⟩

/-- `RiftInstance.get`: field map first, then class method lookup, binding a
found method to the instance; a missing name raises "undefined property". -/
def instGet (s : St) (iRef : Nat) (name : Token) : Except Exc Value × St :=
  match s.insts.get? iRef with
  | none => (.error (.fault "missing instance"), s)
  | some iob =>
    match iob.fields.lookup name.lexeme with
    | some v => (.ok v, s)
    | none =>
      match findMethod s iob.klass name.lexeme with
      | some m =>
        let (s1, r) := bindMethod s m iRef
        (.ok (.fn r), s1)
      | none =>
        (.error (.rte name ("undefined property \x27" ++ name.lexeme ++ "\x27")), s)

/-- `RiftInstance.set`: unconditional field-map assignment. -/
def instSet (s : St) (iRef : Nat) (n : String) (v : Value) : St :=
  match s.insts.get? iRef with
  | some iob =>
    { s with insts := s.insts.set iRef { iob with fields := dictSet iob.fields n v } }
  | none => s

/-- The method-map construction loop of the `ClassStmt` case: each method
becomes a `RiftFunction` closing over the current frame `envRef`, marked an
initializer exactly when named `init`. -/
def buildMethods (envRef : Nat) : List FuncDecl → St → List (String × Nat) → St × List (String × Nat)
  | [], s, acc => (s, acc)
  | m :: rest, s, acc =>
    let isInit := (FuncDecl.name m).lexeme = "init"
    let (s1, r) := allocFn s ⟨m, envRef, isInit⟩
    buildMethods envRef rest s1 (dictSet acc (FuncDecl.name m).lexeme r)

/-- The tail of `Interpreter._execute` on `ClassStmt`, after the superclass
expression (if any) has been evaluated and checked: declare the class name as
nil, push the `"super"` frame when a superclass exists, build the method map,
instantiate the class value, pop the `"super"` frame, and assign the class
value to its name. -/
def classRest (name : Token) (sup : Option Nat) (methods : List FuncDecl) (s : St) :
    Except Exc Unit × St :=
  let s1 := envDefine s s.env name.lexeme .nil
  let s2 :=
    match sup with
    | some supRef =>
      let (sa, r) := allocFrame s1 (some s1.env)
      envDefine { sa with env := r } r "super" (.cls supRef)
    | none => s1
  let (s3, mmap) := buildMethods s2.env methods s2 []
  let (s4, clsRef) := allocCls s3 ⟨name.lexeme, sup, mmap⟩
  match sup with
  | some _ =>
    match (s4.frames.get? s4.env).bind Frame.enclosing with
    | some outer =>
      let s5 := { s4 with env := outer }
      match envAssign s5 s5.env name (.cls clsRef) with
      | .ok s6 => (.ok (), s6)
      | .error ex => (.error ex, s5)
    | none => (.error (.fault "missing enclosing frame"), s4)
  | none =>
    match envAssign s4 s4.env name (.cls clsRef) with
    | .ok s6 => (.ok (), s6)
    | .error ex => (.error ex, s4)

/-- Callee arity as consulted by the `CallExpr` case: `RiftFunction.arity`
is the declared parameter count, `RiftClass.arity` the initializer's arity
(0 with no initializer), and built-ins carry theirs. -/
def arity (s : St) : Value → Nat
  | .fn r =>
    match s.fns.get? r with
    | some f => (FuncDecl.params f.decl).length
    | none => 0
  | .cls r =>
    match findMethod s r "init" with
    | some ir =>
      match s.fns.get? ir with
      | some f => (FuncDecl.params f.decl).length
      | none => 0
    | none => 0
  | .native t => nativeArity t
  | _ => 0

/-- Parameter binding in `RiftFunction.call`: `zip(params, arguments)`
truncates at the shorter list (the caller has already checked arity). -/
def bindParams (envRef : Nat) : List Token → List Value → St → St
  | p :: ps, a :: rest, s => bindParams envRef ps rest (envDefine s envRef p.lexeme a)
  | _, _, s => s

/-- `Interpreter._lookup_variable`: read at the exact resolved depth when the
expression has a depth entry, else from the globals frame (frame 0). -/
def lookupVariable (s : St) (name : Token) (eid : Nat) : Except Exc Value :=
  match s.locals.lookup eid with
  | some d =>
    match getAt s s.env d name.lexeme with
    | some v => .ok v
    | none => .error (.fault "get_at on unresolved binding")
  | none => envGet s 0 name

mutual

/-- `Interpreter._execute`.  The fuel argument decreases on every recursive
call; exhaustion stands for nontermination. -/
def execStmt : Nat → Stmt → St → Except Exc Unit × St
  | 0, _, s => (.error .timeout, s)
  | fuel+1, stmt, s =>
    match stmt with
    | .expression e =>
      match evalExpr fuel e s with
      | (.ok _, s1) => (.ok (), s1)
      | (.error ex, s1) => (.error ex, s1)
    | .print e =>
      match evalExpr fuel e s with
      | (.ok v, s1) => (.ok (), { s1 with output := s1.output ++ [stringify floatRepr s1 v] })
      | (.error ex, s1) => (.error ex, s1)
    | .letS name initializer =>
      match initializer with
      | none => (.ok (), envDefine s s.env name.lexeme .nil)
      | some e =>
        match evalExpr fuel e s with
        | (.ok v, s1) => (.ok (), envDefine s1 s1.env name.lexeme v)
        | (.error ex, s1) => (.error ex, s1)
    | .block stmts =>
      let (s1, r) := allocFrame s (some s.env)
      execBlock fuel stmts r s1
    | .ifS cond thenB elseB =>
      match evalExpr fuel cond s with
      | (.ok v, s1) =>
        if isTruthy v then execStmt fuel thenB s1
        else
          match elseB with
          | some el => execStmt fuel el s1
          | none => (.ok (), s1)
      | (.error ex, s1) => (.error ex, s1)
    | .whileS cond body =>
      match evalExpr fuel cond s with
      | (.ok v, s1) =>
        if isTruthy v then
          match execStmt fuel body s1 with
          | (.ok _, s2) => execStmt fuel (.whileS cond body) s2
          | (.error ex, s2) => (.error ex, s2)
        else (.ok (), s1)
      | (.error ex, s1) => (.error ex, s1)
    | .function d =>
      let (s1, r) := allocFn s ⟨d, s.env, false⟩
      (.ok (), envDefine s1 s1.env (FuncDecl.name d).lexeme (.fn r))
    | .returnS _ value =>
      match value with
      | none => (.error (.ret .nil), s)
      | some e =>
        match evalExpr fuel e s with
        | (.ok v, s1) => (.error (.ret v), s1)
        | (.error ex, s1) => (.error ex, s1)
    | .classS name sup methods =>
      match sup with
      | some (supName, supEid) =>
        match evalExpr fuel (.variable supName supEid) s with
        | (.ok sv, s1) =>
          match sv with
          | .cls supRef => classRest name (some supRef) methods s1
          | _ => (.error (.rte supName "superclass must be a class"), s1)
        | (.error ex, s1) => (.error ex, s1)
      | none => classRest name none methods s

/-- The statement loop of `Interpreter.interpret` and `_execute_block`. -/
def execStmts : Nat → List Stmt → St → Except Exc Unit × St
  | 0, _, s => (.error .timeout, s)
  | _+1, [], s => (.ok (), s)
  | fuel+1, st :: rest, s =>
    match execStmt fuel st s with
    | (.ok _, s1) => execStmts fuel rest s1
    | (.error ex, s1) => (.error ex, s1)

/-- `Interpreter._execute_block`: run the statements under the given frame;
the `finally` clause restores the previous current-environment pointer on
every exit path. -/
def execBlock : Nat → List Stmt → Nat → St → Except Exc Unit × St
  | 0, _, _, s => (.error .timeout, s)
  | fuel+1, stmts, envRef, s =>
    let previous := s.env
    let (res, s1) := execStmts fuel stmts { s with env := envRef }
    (res, { s1 with env := previous })

/-- `Interpreter._evaluate`. -/
def evalExpr : Nat → Expr → St → Except Exc Value × St
  | 0, _, s => (.error .timeout, s)
  | fuel+1, expr, s =>
    match expr with
    | .lit v => (.ok v, s)
    | .grouping e => evalExpr fuel e s
    | .unary op operand =>
      match evalExpr fuel operand s with
      | (.ok right, s1) =>
        match op.type with
        | .minus =>
          match right with
          | .num q => (.ok (.num (-q)), s1)
          | _ => (.error (.rte op "operand must be a number"), s1)
        | .bang => (.ok (.bool (!isTruthy right)), s1)
        | _ => (.ok .nil, s1)
      | (.error ex, s1) => (.error ex, s1)
    | .binary leftN op rightN =>
      match evalExpr fuel leftN s with
      | (.ok left, s1) =>
        match evalExpr fuel rightN s1 with
        | (.ok right, s2) => (evalBinary op left right, s2)
        | (.error ex, s2) => (.error ex, s2)
      | (.error ex, s1) => (.error ex, s1)
    | .variable name eid => (lookupVariable s name eid, s)
    | .assign name valueE eid =>
      match evalExpr fuel valueE s with
      | (.ok v, s1) =>
        match s1.locals.lookup eid with
        | some d =>
          match assignAt s1 s1.env d name.lexeme v with
          | some s2 => (.ok v, s2)
          | none => (.error (.fault "assign_at on unresolved binding"), s1)
        | none =>
          match envAssign s1 0 name v with
          | .ok s2 => (.ok v, s2)
          | .error ex => (.error ex, s1)
      | (.error ex, s1) => (.error ex, s1)
    | .logical leftN op rightN =>
      match evalExpr fuel leftN s with
      | (.ok left, s1) =>
        if op.type = .orK then
          if isTruthy left then (.ok left, s1) else evalExpr fuel rightN s1
        else
          if !isTruthy left then (.ok left, s1) else evalExpr fuel rightN s1
      | (.error ex, s1) => (.error ex, s1)
    | .call calleeE args paren =>
      match evalExpr fuel calleeE s with
      | (.ok callee, s1) =>
        match evalArgs fuel args s1 with
        | (.ok argv, s2) =>
          match callee with
          | .fn _ | .cls _ | .native _ =>
            if argv.length = arity s2 callee then callValue fuel callee argv s2
            else
              (.error (.rte paren ("expected " ++ toString (arity s2 callee) ++
                " arguments but got " ++ toString argv.length)), s2)
          | _ => (.error (.rte paren "can only call functions and classes"), s2)
        | (.error ex, s2) => (.error ex, s2)
      | (.error ex, s1) => (.error ex, s1)
    | .get objE name =>
      match evalExpr fuel objE s with
      | (.ok obj, s1) =>
        match obj with
        | .inst iRef => instGet s1 iRef name
        | _ => (.error (.rte name "only instances have properties"), s1)
      | (.error ex, s1) => (.error ex, s1)
    | .set objE name valueE =>
      match evalExpr fuel objE s with
      | (.ok obj, s1) =>
        match obj with
        | .inst iRef =>
          match evalExpr fuel valueE s1 with
          | (.ok v, s2) => (.ok v, instSet s2 iRef name.lexeme v)
          | (.error ex, s2) => (.error ex, s2)
        | _ => (.error (.rte name "only instances have fields"), s1)
      | (.error ex, s1) => (.error ex, s1)
    | .this keyword eid => (lookupVariable s keyword eid, s)
    | .superE _ method eid =>
      match s.locals.lookup eid with
      | none => (.error (.fault "super without depth entry"), s)
      | some distance =>
        match getAt s s.env distance "super" with
        | some (.cls superRef) =>
          match getAt s s.env (distance - 1) "this" with
          | some (.inst iRef) =>
            match findMethod s superRef method.lexeme with
            | some m =>
              let (s1, r) := bindMethod s m iRef
              (.ok (.fn r), s1)
            | none =>
              (.error (.rte method ("undefined property \x27" ++ method.lexeme ++ "\x27")), s)
          | _ => (.error (.fault "this is not an instance"), s)
        | _ => (.error (.fault "super is not a class"), s)

/-- Left-to-right argument evaluation of the `CallExpr` case. -/
def evalArgs : Nat → List Expr → St → Except Exc (List Value) × St
  | 0, _, s => (.error .timeout, s)
  | _+1, [], s => (.ok [], s)
  | fuel+1, e :: rest, s =>
    match evalExpr fuel e s with
    | (.ok v, s1) =>
      match evalArgs fuel rest s1 with
      | (.ok vs, s2) => (.ok (v :: vs), s2)
      | (.error ex, s2) => (.error ex, s2)
    | (.error ex, s1) => (.error ex, s1)

/-- `callee.call(self, args)`: dispatch on the callee kind (the call site has
already restricted it to functions, classes and built-ins). -/
def callValue : Nat → Value → List Value → St → Except Exc Value × St
  | 0, _, _, s => (.error .timeout, s)
  | fuel+1, v, args, s =>
    match v with
    | .fn r => callFn fuel r args s
    | .cls r => callClass fuel r args s
    | .native t => (callNative floatRepr t args s)
    | _ => (.error (.fault "not callable"), s)

/-- `RiftFunction.call`: a fresh frame enclosed by the captured environment,
parameters bound by name, the body executed as a block.  A `ReturnException`
is caught here; an initializer's result is overridden by the `"this"` of its
closure frame on both the return and the fall-through paths. -/
def callFn : Nat → Nat → List Value → St → Except Exc Value × St
  | 0, _, _, s => (.error .timeout, s)
  | fuel+1, r, args, s =>
    match s.fns.get? r with
    | none => (.error (.fault "missing function object"), s)
    | some fob =>
      let (s1, envRef) := allocFrame s (some fob.closure)
      let s2 := bindParams envRef (FuncDecl.params fob.decl) args s1
      match execBlock fuel (FuncDecl.body fob.decl) envRef s2 with
      | (.ok _, s3) =>
        if fob.isInitializer then
          match getAt s3 fob.closure 0 "this" with
          | some t => (.ok t, s3)
          | none => (.error (.fault "initializer closure without this"), s3)
        else (.ok .nil, s3)
      | (.error (.ret rv), s3) =>
        if fob.isInitializer then
          match getAt s3 fob.closure 0 "this" with
          | some t => (.ok t, s3)
          | none => (.error (.fault "initializer closure without this"), s3)
        else (.ok rv, s3)
      | (.error ex, s3) => (.error ex, s3)

/-- `RiftClass.call`: allocate a fresh instance; when an `init` method exists
on the class chain, invoke it bound to that instance (its result discarded);
the instance itself is returned. -/
def callClass : Nat → Nat → List Value → St → Except Exc Value × St
  | 0, _, _, s => (.error .timeout, s)
  | fuel+1, r, args, s =>
    match s.clss.get? r with
    | none => (.error (.fault "missing class object"), s)
    | some _ =>
      let (s1, iRef) := allocInst s r
      match findMethod s1 r "init" with
      | none => (.ok (.inst iRef), s1)
      | some initRef =>
        let (s2, boundRef) := bindMethod s1 initRef iRef
        match callFn fuel boundRef args s2 with
        | (.ok _, s3) => (.ok (.inst iRef), s3)
        | (.error ex, s3) => (.error ex, s3)

end

/-- The evaluator's starting state: a globals frame holding the six built-ins
defined by `stdlib.define_natives`, in definition order. -/
def initSt : St :=
  { frames := [⟨[("clock", .native 0), ("len", .native 1), ("str", .native 2),
                 ("num", .native 3), ("input", .native 4), ("type", .native 5)], none⟩]
  , fns := [], clss := [], insts := [], env := 0, locals := [], output := [] }

/-- The resolver's function-kind register (`resolver._FunctionType`). -/
inductive FnType where
  | none | function | method | initializer
deriving DecidableEq, Repr

/-- The resolver's class-kind register (`resolver._ClassType`). -/
inductive ClsType where
  | none | cls | subclass
deriving DecidableEq, Repr

/-- The resolver state: the scope stack (innermost frame first, matching
Python's `scopes[-1]`), both kind registers, the accumulated errors (each a
`ParseError` of token and message), and the depth table written through
`Interpreter.resolve`. -/
structure RSt where
  scopes : List (List (String × Bool))
  currentFunction : FnType
  currentClass : ClsType
  errors : List (Token × String)
  locals : List (Nat × Nat)

def initR : RSt :=
  { scopes := [], currentFunction := .none, currentClass := .none
  , errors := [], locals := [] }

def rAddErr (r : RSt) (tok : Token) (msg : String) : RSt :=
  { r with errors := r.errors ++ [(tok, msg)] }

/-- `Resolver._begin_scope`. -/
def rBeginScope (r : RSt) : RSt := { r with scopes := [] :: r.scopes }

/-- `Resolver._end_scope` (popping an empty stack cannot occur: every pop is
paired with a push). -/
def rEndScope (r : RSt) : RSt := { r with scopes := r.scopes.tail }

/-- `Resolver._declare`: no-op at global scope; a duplicate name in the
innermost frame is an error; the name is inserted as not-yet-defined. -/
def rDeclare (r : RSt) (name : Token) : RSt :=
  match r.scopes with
  | [] => r
  | scope :: rest =>
    let r1 :=
      if (scope.lookup name.lexeme).isSome then
        rAddErr r name
          ("variable \x27" ++ name.lexeme ++ "\x27 already declared in this scope")
      else r
    { r1 with scopes := dictSet scope name.lexeme false :: rest }

/-- `Resolver._define`. -/
def rDefine (r : RSt) (name : Token) : RSt :=
  match r.scopes with
  | [] => r
  | scope :: rest => { r with scopes := dictSet scope name.lexeme true :: rest }

/-- Direct assignment into the innermost scope, as done for the `"super"` and
`"this"` bindings (`self.scopes[-1][k] = True`). -/
def rSetTop (r : RSt) (k : String) : RSt :=
  match r.scopes with
  | [] => r
  | scope :: rest => { r with scopes := dictSet scope k true :: rest }

/-- Index of the innermost scope containing the name, which is exactly the
depth `len(scopes) - 1 - i` recorded by `Resolver._resolve_local`. -/
def scopeIndex : List (List (String × Bool)) → String → Option Nat
  | [], _ => none
  | scope :: rest, n =>
    if (scope.lookup n).isSome then some 0
    else (scopeIndex rest n).map (· + 1)

/-- `Resolver._resolve_local` combined with `Interpreter.resolve`: scan the
scope stack from innermost outward and record the depth for the expression's
identity; emit nothing for an unresolved (global) name. -/
def rResolveLocal (r : RSt) (eid : Nat) (name : Token) : RSt :=
  match scopeIndex r.scopes name.lexeme with
  | some d => { r with locals := dictSet r.locals eid d }
  | none => r

mutual

/-- `Resolver._resolve_expr`. -/
def resolveExpr : Expr → RSt → RSt
  | .variable name eid, r =>
    let r1 :=
      match r.scopes with
      | scope :: _ =>
        if scope.lookup name.lexeme = some false then
          rAddErr r name "cannot read variable in its own initializer"
        else r
      | [] => r
    rResolveLocal r1 eid name
  | .assign name value eid, r =>
    let r1 := resolveExpr value r
    rResolveLocal r1 eid name
  | .binary left _ right, r => resolveExpr right (resolveExpr left r)
  | .unary _ operand, r => resolveExpr operand r
  | .logical left _ right, r => resolveExpr right (resolveExpr left r)
  | .call callee args _, r => resolveExprs args (resolveExpr callee r)
  | .get obj _, r => resolveExpr obj r
  | .set obj _ value, r => resolveExpr obj (resolveExpr value r)
  | .grouping e, r => resolveExpr e r
  | .lit _, r => r
  | .this keyword eid, r =>
    let r1 :=
      if r.currentClass = .none then
        rAddErr r keyword "cannot use \x27this\x27 outside of a class"
      else r
    rResolveLocal r1 eid keyword
  | .superE keyword _ eid, r =>
    let r1 :=
      if r.currentClass = .none then
        rAddErr r keyword "cannot use \x27super\x27 outside of a class"
      else if r.currentClass ≠ .subclass then
        rAddErr r keyword "cannot use \x27super\x27 in a class with no superclass"
      else r
    rResolveLocal r1 eid keyword

/-- The argument loop of the `CallExpr` case. -/
def resolveExprs : List Expr → RSt → RSt
  | [], r => r
  | e :: rest, r => resolveExprs rest (resolveExpr e r)

end

mutual

/-- `Resolver._resolve_stmt`. -/
def resolveStmt : Stmt → RSt → RSt
  | .block stmts, r => rEndScope (resolveStmts stmts (rBeginScope r))
  | .letS name initializer, r =>
    let r1 := rDeclare r name
    let r2 :=
      match initializer with
      | some e => resolveExpr e r1
      | none => r1
    rDefine r2 name
  | .function d, r =>
    let r1 := rDefine (rDeclare r (FuncDecl.name d)) (FuncDecl.name d)
    resolveFn d .function r1
  | .expression e, r => resolveExpr e r
  | .ifS cond thenB elseB, r =>
    let r1 := resolveStmt thenB (resolveExpr cond r)
    match elseB with
    | some el => resolveStmt el r1
    | none => r1
  | .print e, r => resolveExpr e r
  | .returnS keyword value, r =>
    let r1 :=
      if r.currentFunction = .none then
        rAddErr r keyword "cannot return from top-level code"
      else r
    match value with
    | some e =>
      let r2 :=
        if r1.currentFunction = .initializer then
          rAddErr r1 keyword "cannot return a value from an initializer"
        else r1
      resolveExpr e r2
    | none => r1
  | .whileS cond body, r => resolveStmt body (resolveExpr cond r)
  | .classS name superclass methods, r =>
    let enclosingClass := r.currentClass
    let r1 := { r with currentClass := .cls }
    let r2 := rDefine (rDeclare r1 name) name
    let r3 :=
      match superclass with
      | some (supName, supEid) =>
        let ra :=
          if supName.lexeme = name.lexeme then
            rAddErr r2 supName "a class cannot inherit from itself"
          else r2
        let rb := { ra with currentClass := .subclass }
        let rc := resolveExpr (.variable supName supEid) rb
        rSetTop (rBeginScope rc) "super"
      | none => r2
    let r4 := rSetTop (rBeginScope r3) "this"
    let r5 := resolveMethods methods r4
    let r6 := rEndScope r5
    let r7 :=
      match superclass with
      | some _ => rEndScope r6
      | none => r6
    { r7 with currentClass := enclosingClass }

/-- `Resolver.resolve`, the statement loop. -/
def resolveStmts : List Stmt → RSt → RSt
  | [], r => r
  | st :: rest, r => resolveStmts rest (resolveStmt st r)

/-- The method loop of the `ClassStmt` case: each method resolves as a
function of kind `METHOD`, or `INITIALIZER` when named `init`. -/
def resolveMethods : List FuncDecl → RSt → RSt
  | [], r => r
  | m :: rest, r =>
    let ft : FnType :=
      if (FuncDecl.name m).lexeme = "init" then .initializer else .method
    resolveMethods rest (resolveFn m ft r)

/-- `Resolver._resolve_function`: save and set the function-kind register,
push a frame, declare-and-define the parameters, resolve the body, pop, and
restore the register. -/
def resolveFn : FuncDecl → FnType → RSt → RSt
  | .mk _ params body, ft, r =>
    let enclosing := r.currentFunction
    let r1 := rBeginScope { r with currentFunction := ft }
    let r2 := params.foldl (fun acc p => rDefine (rDeclare acc p) p) r1
    let r3 := resolveStmts body r2
    let r4 := rEndScope r3
    { r4 with currentFunction := enclosing }

end

/-- The post-parse part of `__main__.run`: resolve against a fresh resolver,
and evaluate only when no resolve error was recorded (`interpret` receives
the depth table the resolver wrote into the evaluator). -/
def runProgram (fuel : Nat) (stmts : List Stmt) : Option (Except Exc Unit × St) :=
  let r := resolveStmts stmts initR
  if r.errors.isEmpty then
    some (execStmts fuel stmts { initSt with locals := r.locals })
  else none

/-- The host (CPython) character classifiers the scanner calls:
`str.isdigit`, `str.isalpha`, `str.isalnum` on one-character strings. -/
structure HostChar where
  isAlpha : Char → Bool
  isDigit : Char → Bool
  isAlnum : Char → Bool

/-- CPython `str.isalpha` restricted to code points below `U+0100` (ASCII and
Latin-1 letters); CPython additionally accepts letters beyond Latin-1, which
no theorem here exercises. -/
def latin1Alpha (c : Char) : Bool :=
  (('A' ≤ c && c ≤ 'Z') || ('a' ≤ c && c ≤ 'z')) ||
  (c.toNat == 0xAA || c.toNat == 0xB5 || c.toNat == 0xBA ||
   (0xC0 ≤ c.toNat && c.toNat ≤ 0xFF && c.toNat != 0xD7 && c.toNat != 0xF7))

/-- ASCII `0`–`9`.  CPython `str.isdigit` also accepts a few non-ASCII digit
code points (the Latin-1 superscripts among them), on which the scanner's
number path would subsequently crash inside `float()`; that host corner is
outside this model and no theorem relies on it. -/
def asciiDigit (c : Char) : Bool := '0' ≤ c && c ≤ '9'

/-- The CPython classifier model used for concrete scans (`isalnum` is the
union of the other two on the modelled range). -/
def cpyHost : HostChar :=
  ⟨latin1Alpha, asciiDigit, fun c => latin1Alpha c || asciiDigit c⟩

/-- The scanner state (`Scanner.__init__`): source characters, emitted
tokens, the `start`/`current` cursor pair, position counters, and the
accumulated scan errors (each a `ScanError` of line, column, message). -/
structure Scn where
  src : List Char
  tokens : List Token
  start : Nat
  current : Nat
  line : Nat
  column : Nat
  errors : List (Nat × Nat × String)

def initScn (source : String) : Scn := ⟨source.data, [], 0, 0, 1, 1, []⟩

/-- `Scanner._is_at_end`. -/
def atEnd (s : Scn) : Bool := s.src.length ≤ s.current

/-- The character at the cursor (all call sites guard against the end). -/
def charAt (s : Scn) : Char := s.src.getD s.current '\x00'

/-- `Scanner._peek` (the zero character at the end, as in the source). -/
def peekc (s : Scn) : Char := if atEnd s then '\x00' else charAt s

/-- `Scanner._peek_next`. -/
def peekNext (s : Scn) : Char :=
  if s.src.length ≤ s.current + 1 then '\x00' else s.src.getD (s.current + 1) '\x00'

/-- The cursor/column step performed by `Scanner._advance`. -/
def stepc (s : Scn) : Scn := { s with current := s.current + 1, column := s.column + 1 }

/-- `Scanner._match`. -/
def matchc (s : Scn) (expected : Char) : Bool × Scn :=
  if atEnd s then (false, s)
  else if charAt s != expected then (false, s)
  else (true, stepc s)

/-- Python `source[start:current]`. -/
def sliceLex (s : Scn) : List Char := (s.src.drop s.start).take (s.current - s.start)

/-- `Scanner._add_token`: the lexeme is the current slice and the recorded
column points at its first character. -/
def addToken (s : Scn) (ty : TokType) (lit : Option Lit) : Scn :=
  let text := sliceLex s
  { s with tokens := s.tokens ++ [⟨ty, ⟨text⟩, lit, s.line, s.column - text.length⟩] }

def addScanErr (s : Scn) (line col : Nat) (msg : String) : Scn :=
  { s with errors := s.errors ++ [(line, col, msg)] }

/-- The identifier loop of `Scanner._identifier`: consume while the host
reports alphanumeric or underscore.  The counter bounds the loop; the source
length always suffices since every step advances the cursor. -/
def identLoop (H : HostChar) : Nat → Scn → Scn
  | 0, s => s
  | b+1, s =>
    if !atEnd s && (H.isAlnum (peekc s) || peekc s == '_') then identLoop H b (stepc s)
    else s

/-- `Scanner._identifier`: maximal munch, then the keyword table decides the
token kind. -/
def identScan (H : HostChar) (s : Scn) : Scn :=
  let s1 := identLoop H (s.src.length + 1) s
  let text : String := ⟨sliceLex s1⟩
  addToken s1 ((KEYWORDS.lookup text).getD .identifier) none

/-- The length of the maximal host-alphanumeric-or-underscore run at the
cursor: what the identifier loop consumes. -/
def munchLen (H : HostChar) (s : Scn) : Nat :=
  ((s.src.drop s.current).takeWhile (fun c => H.isAlnum c || c == '_')).length

/-- The digit loops of `Scanner._number`. -/
def digitLoop (H : HostChar) : Nat → Scn → Scn
  | 0, s => s
  | b+1, s =>
    if !atEnd s && H.isDigit (peekc s) then digitLoop H b (stepc s)
    else s

/-- Host model: `float(text)` on the plain decimal strings the scanner's
ASCII digit path produces, computed exactly over rationals (the double
rounding of the host is abstracted away, as everywhere in this model). -/
def digitsVal (cs : List Char) : Nat :=
  cs.foldl (fun a c => a * 10 + (c.toNat - 48)) 0

def numLit (cs : List Char) : Rat :=
  let ip := cs.takeWhile (fun c => c != '.')
  let fp := (cs.dropWhile (fun c => c != '.')).drop 1
  (digitsVal ip : Rat) + (digitsVal fp : Rat) / ((10 : Rat) ^ fp.length)

/-- `Scanner._number`: a digit run, then a fractional part only when the dot
is followed by a digit. -/
def numberScan (H : HostChar) (s : Scn) : Scn :=
  let s1 := digitLoop H (s.src.length + 1) s
  let s2 :=
    if !atEnd s1 && peekc s1 == '.' && H.isDigit (peekNext s1) then
      digitLoop H (s1.src.length + 1) (stepc s1)
    else s1
  addToken s2 .number (some (.num (numLit (sliceLex s2))))

/-- The accumulation loop of `Scanner._string`: track line breaks, decode the
four escapes, keep any other escape as the two raw characters (a trailing
lone backslash keeps just the backslash, as `esc = ""` does in the source). -/
def strLoop : Nat → Scn → List Char → Scn × List Char
  | 0, s, acc => (s, acc)
  | b+1, s, acc =>
    if atEnd s || peekc s == '"' then (s, acc)
    else
      let ch := peekc s
      let s0 := if ch == '\n' then { s with line := s.line + 1, column := 0 } else s
      if ch == '\\' then
        let s1 := stepc s0
        if atEnd s1 then strLoop b s1 (acc ++ ['\\'])
        else
          let e := charAt s1
          let s2 := stepc s1
          let dec : List Char :=
            if e == 'n' then ['\n']
            else if e == 't' then ['\t']
            else if e == '\\' then ['\\']
            else if e == '"' then ['"']
            else ['\\', e]
          strLoop b s2 (acc ++ dec)
      else strLoop b (stepc s0) (acc ++ [ch])

/-- `Scanner._string`: an unterminated string records an error and emits no
token; otherwise the closing quote is consumed and the decoded value becomes
the literal payload. -/
def stringScan (s : Scn) : Scn :=
  let startLine := s.line
  let startCol := s.column - 1
  let (s1, val) := strLoop (s.src.length + 1) s []
  if atEnd s1 then addScanErr s1 startLine startCol "unterminated string"
  else addToken (stepc s1) .string (some (.str ⟨val⟩))

/-- The comment loop of the `/` case: consume up to, not including, the
next line feed. -/
def commentLoop : Nat → Scn → Scn
  | 0, s => s
  | b+1, s =>
    if !atEnd s && peekc s != '\n' then commentLoop b (stepc s)
    else s

/-- Python `repr` of a one-character string, as interpolated into the
"unexpected character" message (escape-free for the printable characters any
theorem exercises). -/
def charRepr (c : Char) : String := "\x27" ++ ⟨[c]⟩ ++ "\x27"

/-- `Scanner._scan_token`: consume one character and dispatch. -/
def scanToken (H : HostChar) (s : Scn) : Scn :=
  let c := charAt s
  let s1 := stepc s
  match c with
  | '(' => addToken s1 .leftParen none
  | ')' => addToken s1 .rightParen none
  | '{' => addToken s1 .leftBrace none
  | '}' => addToken s1 .rightBrace none
  | ',' => addToken s1 .comma none
  | '.' => addToken s1 .dot none
  | '-' => addToken s1 .minus none
  | '+' => addToken s1 .plus none
  | ';' => addToken s1 .semicolon none
  | '*' => addToken s1 .star none
  | '%' => addToken s1 .percent none
  | '!' =>
    let (m, s2) := matchc s1 '='
    addToken s2 (if m then .bangEqual else .bang) none
  | '=' =>
    let (m, s2) := matchc s1 '='
    addToken s2 (if m then .equalEqual else .equal) none
  | '<' =>
    let (m, s2) := matchc s1 '='
    addToken s2 (if m then .lessEqual else .less) none
  | '>' =>
    let (m, s2) := matchc s1 '='
    addToken s2 (if m then .greaterEqual else .greater) none
  | '/' =>
    let (m, s2) := matchc s1 '/'
    if m then commentLoop (s2.src.length + 1) s2 else addToken s2 .slash none
  | ' ' => s1
  | '\r' => s1
  | '\t' => s1
  | '\n' => { s1 with line := s1.line + 1, column := 1 }
  | '"' => stringScan s1
  | c =>
    if H.isDigit c then numberScan H s1
    else if H.isAlpha c || c == '_' then identScan H s1
    else addScanErr s1 s1.line (s1.column - 1) ("unexpected character " ++ charRepr c)

/-- The scan loop of `Scanner.scan_tokens`: set `start` to the cursor and
scan one token while input remains. -/
def scanLoop (H : HostChar) : Nat → Scn → Scn
  | 0, s => s
  | b+1, s =>
    if atEnd s then s
    else scanLoop H b (scanToken H { s with start := s.current })

/-- `Scanner.scan_tokens`: the loop, then a single trailing `EOF` token. -/
def scanTokens (H : HostChar) (source : String) : Scn :=
  let s0 := initScn source
  let s1 := scanLoop H (s0.src.length + 1) s0
  { s1 with tokens := s1.tokens ++ [⟨.eof, "", none, s1.line, s1.column⟩] }

/-- What a run observably does: whether it finished without an exception, and
what it printed. -/
def runObs (fuel : Nat) (stmts : List Stmt) : Option (Bool × List String) :=
  (runProgram fuel stmts).map
    (fun p => (match p.1 with | .ok _ => true | .error _ => false, p.2.output))

/-- A token of a concrete test program.  Positions are fixed at 1:1; no
property below depends on them except where stated. -/
def tok (ty : TokType) (lx : String) : Token := ⟨ty, lx, none, 1, 1⟩

/-- The spec's negative scenario `let x = x + 1;` as parsed (the initializer
reads the variable being declared). -/
def c2Prog : List Stmt :=
  [.letS (tok .identifier "x")
    (some (.binary (.variable (tok .identifier "x") 0) (tok .plus "+") (.lit (.num 1))))]

/-- `let A = 1; class C < A {}` — a superclass expression that evaluates to a
non-class. -/
def c3Prog : List Stmt :=
  [ .letS (tok .identifier "A") (some (.lit (.num 1)))
  , .classS (tok .identifier "C") (some (tok .identifier "A", 30)) [] ]

/-- The spec's canonical counter program:
`fn makeCounter(){let n=0; fn inc(){n=n+1; return n;} return inc;}
let c=makeCounter(); print(c()); print(c()); print(c());`. -/
def counterProg : List Stmt :=
  [ .function (.mk (tok .identifier "makeCounter") []
      [ .letS (tok .identifier "n") (some (.lit (.num 0)))
      , .function (.mk (tok .identifier "inc") []
          [ .expression (.assign (tok .identifier "n")
              (.binary (.variable (tok .identifier "n") 10) (tok .plus "+") (.lit (.num 1))) 11)
          , .returnS (tok .returnK "return") (some (.variable (tok .identifier "n") 12))])
      , .returnS (tok .returnK "return") (some (.variable (tok .identifier "inc") 13))])
  , .letS (tok .identifier "c")
      (some (.call (.variable (tok .identifier "makeCounter") 14) [] (tok .rightParen ")")))
  , .print (.call (.variable (tok .identifier "c") 15) [] (tok .rightParen ")"))
  , .print (.call (.variable (tok .identifier "c") 16) [] (tok .rightParen ")"))
  , .print (.call (.variable (tok .identifier "c") 17) [] (tok .rightParen ")"))
  ]

/-- The spec's `super` scenario:
`class A { m() { return "A"; } } class B < A { m() { return super.m() + "B"; } }
print(B().m());`. -/
def superProg : List Stmt :=
  [ .classS (tok .identifier "A") none
      [ .mk (tok .identifier "m") []
          [ .returnS (tok .returnK "return") (some (.lit (.str "A"))) ] ]
  , .classS (tok .identifier "B") (some (tok .identifier "A", 21))
      [ .mk (tok .identifier "m") []
          [ .returnS (tok .returnK "return")
              (some (.binary
                (.call (.superE (tok .superK "super") (tok .identifier "m") 20) []
                  (tok .rightParen ")"))
                (tok .plus "+") (.lit (.str "B")))) ] ]
  , .print (.call
      (.get (.call (.variable (tok .identifier "B") 22) [] (tok .rightParen ")"))
        (tok .identifier "m"))
      [] (tok .rightParen ")"))
  ]

/-- The evaluator state `__main__.run` hands to `interpret` for the counter
program: the fresh interpreter state carrying the depth table the resolver
computed (see `c5_closure_counter`). -/
def counterStart : St :=
  { frames := initSt.frames, fns := [], clss := [], insts := [], env := 0
  , locals := [(10, 1), (11, 1), (12, 1), (13, 0)], output := [] }

/-- Likewise for the `super` program: only the `SuperExpr` (identity 20) gets
a depth entry, at depth 2 (the `"this"` frame, then the method-call frame,
then the `"super"` frame). -/
def superStart : St :=
  { frames := initSt.frames, fns := [], clss := [], insts := [], env := 0
  , locals := [(20, 2)], output := [] }

/-- Resolver state extension: errors only accumulate, and the two kind
registers come back to their incoming values. -/
def rPres (a b : RSt) : Prop :=
  (∃ l, b.errors = a.errors ++ l) ∧
  b.currentFunction = a.currentFunction ∧
  b.currentClass = a.currentClass

/-- Errors only accumulate and the function register is unchanged (the class
register may move, as it does inside a ClassStmt). -/
def rMono (a b : RSt) : Prop :=
  (∃ l, b.errors = a.errors ++ l) ∧ b.currentFunction = a.currentFunction

/-!
Theorems.  Batteries marks rational arithmetic irreducible; concrete runs
are evaluated here, so it is restored to the default transparency locally.
-/

attribute [local semireducible] Rat.add Rat.sub Rat.mul Rat.inv

theorem endsDot0_append (x : String) : endsDot0 (x ++ ".0") = true := by
  have h : (x ++ ".0").data = x.data ++ ['.', '0'] := by
    rw [String.data_append]
  simp [endsDot0, h, List.reverse_append]

theorem drop2_append (x : String) : drop2 (x ++ ".0") = x := by
  obtain ⟨d⟩ := x
  have h : ((⟨d⟩ : String) ++ ".0").data = (d ++ ['.']) ++ ['0'] := by
    rw [String.data_append]; simp
  simp [drop2, h, List.dropLast_concat]

theorem get_append_length {α : Type} (l : List α) (a : α) :
    (l ++ [a]).get? l.length = some a := by
  induction l with
  | nil => rfl
  | cons x rest ih => simpa using ih

theorem set_append_length {α : Type} (l : List α) (a b : α) :
    (l ++ [a]).set l.length b = l ++ [b] := by
  induction l with
  | nil => rfl
  | cons x rest ih => simpa using ih

/-- C9: stringification maps nil to "nil", the booleans to "true"/"false", a
string to its raw contents; a number whose host representation is the
integer digits followed by ".0" (the host's form for exact-integer doubles)
prints without that trailing ".0", and a number whose host representation
does not end in ".0" (the host's form for every non-integer double) prints
as that representation unchanged. -/
theorem c9_stringify_shapes (fstr : Rat → String) (s : St) (b : Bool)
    (t x : String) (q q2 : Rat)
    (hq : fstr q = x ++ ".0") (hq2 : endsDot0 (fstr q2) = false) :
    stringify fstr s .nil = "nil" ∧
    stringify fstr s (.bool b) = (if b then "true" else "false") ∧
    stringify fstr s (.str t) = t ∧
    stringify fstr s (.num q) = x ∧
    stringify fstr s (.num q2) = fstr q2 := by
  refine ⟨rfl, rfl, rfl, ?_, ?_⟩
  · simp [stringify, hq, endsDot0_append, drop2_append]
  · simp [stringify, hq2]

/-- C2 (counterexample): resolving the top-level program `let x = x + 1;`
produces no resolve error at all — the scope stack is empty at top level, so
the initializer's `x` is assumed global — and the run in fact reaches the
Evaluator, which raises the runtime error "undefined variable 'x'". -/
theorem c2_counterexample :
    (resolveStmts c2Prog initR).errors = [] ∧
    (runProgram 10 c2Prog).map Prod.fst
      = some (.error (.rte (tok .identifier "x") "undefined variable \x27x\x27")) := by
  exact ⟨by decide, by decide⟩

/-- C2 (amended): the Resolver does not reject top-level `let x = x + 1;`
(no error, no depth entry); the run is still rejected, by the Evaluator's
runtime error "undefined variable 'x'"; the same declaration inside a block
is rejected at resolve time with "cannot read variable in its own
initializer". -/
theorem c2_self_read_in_initializer :
    (resolveStmts c2Prog initR).errors = [] ∧
    (resolveStmts c2Prog initR).locals = [] ∧
    (runProgram 10 c2Prog).map Prod.fst
      = some (.error (.rte (tok .identifier "x") "undefined variable \x27x\x27")) ∧
    (resolveStmts [.block c2Prog] initR).errors
      = [(tok .identifier "x", "cannot read variable in its own initializer")] := by
  exact ⟨by decide, by decide, by decide, by decide⟩

set_option maxHeartbeats 8000000 in
/-- C5: function values capture the environment frame itself, not a snapshot:
resolving the canonical counter program records no error, the run proceeds to
the Evaluator with the resolver's depth table, and the three successive calls
print 1, 2 and 3 — each assignment to the captured variable is visible
through the closure. -/
theorem c5_closure_counter :
    runProgram 30 counterProg = some (execStmts 30 counterProg counterStart) ∧
    (execStmts 30 counterProg counterStart).2.output = ["1", "2", "3"] := by
  constructor
  · have herr : (resolveStmts counterProg initR).errors = [] := by decide
    have hloc : (resolveStmts counterProg initR).locals
        = [(10, 1), (11, 1), (12, 1), (13, 0)] := by decide
    simp only [runProgram, herr, hloc, List.isEmpty_nil, if_true]
    rfl
  · norm_num [counterStart, counterProg, tok, execStmts, execStmt, evalExpr, evalArgs,
      callValue, callFn, callClass, execBlock, evalBinary, checkNumbers, lookupVariable,
      envGet, envGetA, envAssign, envAssignA, getAt, assignAt, ancestorA, allocFrame,
      allocFn, allocCls, allocInst, setFrame, envDefine, bindParams, bindMethod, instGet,
      instSet, findMethod, findMethodA, arity, nativeArity, isTruthy, isEqual, stringify,
      floatRepr, endsDot0, drop2, dictSet, classRest, buildMethods, callNative, initSt,
      List.lookup, FuncDecl.name, FuncDecl.params, FuncDecl.body, pyMod, typeName]
    decide

/-- C3 (counterexample): running `let A = 1; class C < A {}` raises
"superclass must be a class" at the superclass token, and at that point the
name `C` is NOT defined in the current (globals) frame — the claim asserts
it would already be bound to nil. -/
theorem c3_counterexample :
    (runProgram 10 c3Prog).map
      (fun p => (p.1, (p.2.frames.getD 0 ⟨[], none⟩).values.lookup "C"))
      = some (.error (.rte (tok .identifier "A") "superclass must be a class"), none) := by
  decide

/-- C3 (amended): executing a Class statement first evaluates the superclass
expression and requires a class value; if the value is not a class, the
runtime error "superclass must be a class" is raised and the resulting state
is exactly the post-evaluation state — in particular the class name has not
been declared in any frame; only when a class value is obtained does
execution proceed to `classRest`, whose first step declares the class name
as nil in the current frame. -/
theorem c3_superclass_before_declare (fuel : Nat) (s : St) (name supName : Token)
    (supEid : Nat) (methods : List FuncDecl) :
    (∀ s1 v, evalExpr fuel (.variable supName supEid) s = (.ok v, s1) →
      (∀ r, v ≠ .cls r) →
      execStmt (fuel + 1) (.classS name (some (supName, supEid)) methods) s
        = (.error (.rte supName "superclass must be a class"), s1)) ∧
    (∀ s1 supRef, evalExpr fuel (.variable supName supEid) s = (.ok (.cls supRef), s1) →
      execStmt (fuel + 1) (.classS name (some (supName, supEid)) methods) s
        = classRest name (some supRef) methods s1) := by
  constructor
  · intro s1 v hev hnc
    cases v <;> simp [execStmt, hev] <;> exact absurd rfl (hnc _)
  · intro s1 supRef hev
    simp [execStmt, hev]

theorem c3_superclass_before_declare_witness :
    execStmt 2 (.classS (tok .identifier "C") (some (tok .identifier "A", 30)) [])
        { initSt with frames := [⟨[("A", .num 1)], none⟩] }
      = (.error (.rte (tok .identifier "A") "superclass must be a class"),
         { initSt with frames := [⟨[("A", .num 1)], none⟩] }) := by
  exact (c3_superclass_before_declare 1
      { initSt with frames := [⟨[("A", .num 1)], none⟩] }
      (tok .identifier "C") (tok .identifier "A") 30 []).1
    { initSt with frames := [⟨[("A", .num 1)], none⟩] } (.num 1) rfl
    (fun r h => Value.noConfusion h)

theorem c9_stringify_shapes_witness :
    stringify floatRepr initSt .nil = "nil" ∧
    stringify floatRepr initSt (.bool true) = "true" ∧
    stringify floatRepr initSt (.str "hi") = "hi" ∧
    stringify floatRepr initSt (.num 42) = "42" ∧
    stringify floatRepr initSt (.num (157 / 50)) = "157/50" := by
  have h := c9_stringify_shapes floatRepr initSt true "hi" "42" 42 (157 / 50)
    (by decide) (by decide)
  exact ⟨h.1, h.2.1, h.2.2.1, h.2.2.2.1, h.2.2.2.2⟩

set_option maxHeartbeats 8000000 in
/-- C4: the evaluator settles `super.m` by reading the superclass at the
expression's recorded depth under `"super"`, reading the instance one frame
shallower under `"this"`, looking `m` up on the superclass chain
(`find_method`), and returning the found method bound to that instance: a
fresh function object sharing the method's declaration and initializer flag
whose closure is a fresh frame binding `"this"` to the instance.  The spec's
end-to-end scenario `class B < A { m() { return super.m() + "B"; } }`
resolves cleanly (the `SuperExpr` at depth 2) and prints `AB`. -/
theorem c4_super_dispatch (fuel : Nat) (s : St) (kw m : Token)
    (eid d cRef iRef fRef : Nat) (fob : FnObj)
    (hd : s.locals.lookup eid = some d)
    (hsup : getAt s s.env d "super" = some (.cls cRef))
    (hthis : getAt s s.env (d - 1) "this" = some (.inst iRef))
    (hfind : findMethod s cRef m.lexeme = some fRef)
    (hfob : s.fns.get? fRef = some fob) :
    (evalExpr (fuel + 1) (.superE kw m eid) s
      = (.ok (.fn s.fns.length),
         { s with
           frames := s.frames ++ [⟨[("this", .inst iRef)], some fob.closure⟩]
         , fns := s.fns ++ [⟨fob.decl, s.frames.length, fob.isInitializer⟩] })) ∧
    runProgram 40 superProg = some (execStmts 40 superProg superStart) ∧
    (execStmts 40 superProg superStart).2.output = ["AB"] := by
  have hfob2 : s.fns[fRef]? = some fob := by
    simpa [List.get?_eq_getElem?] using hfob
  refine ⟨?_, ?_, ?_⟩
  · simp [evalExpr, hd, hsup, hthis, hfind, bindMethod, hfob2, allocFrame, allocFn,
      envDefine, setFrame, get_append_length, set_append_length, dictSet]
  · have herr : (resolveStmts superProg initR).errors = [] := by decide
    have hloc : (resolveStmts superProg initR).locals = [(20, 2)] := by decide
    simp only [runProgram, herr, hloc, List.isEmpty_nil, if_true]
    rfl
  · simp [superStart, superProg, tok, execStmts, execStmt, evalExpr, evalArgs,
      callValue, callFn, callClass, execBlock, evalBinary, checkNumbers, lookupVariable,
      envGet, envGetA, envAssign, envAssignA, getAt, assignAt, ancestorA, allocFrame,
      allocFn, allocCls, allocInst, setFrame, envDefine, bindParams, bindMethod, instGet,
      instSet, findMethod, findMethodA, arity, nativeArity, isTruthy, isEqual, stringify,
      floatRepr, endsDot0, drop2, dictSet, classRest, buildMethods, callNative, initSt,
      List.lookup, FuncDecl.name, FuncDecl.params, FuncDecl.body, pyMod, typeName]

theorem c4_super_dispatch_witness :
    evalExpr 1
        (.superE (tok .superK "super") (tok .identifier "m") 99)
        { frames := [⟨[("super", .cls 0)], none⟩, ⟨[("this", .inst 0)], some 0⟩]
        , fns := [⟨.mk (tok .identifier "m") [] [], 0, false⟩]
        , clss := [⟨"A", none, [("m", 0)]⟩]
        , insts := [⟨0, []⟩], env := 1, locals := [(99, 1)], output := [] }
      = (.ok (.fn 1),
         { frames := [⟨[("super", .cls 0)], none⟩, ⟨[("this", .inst 0)], some 0⟩,
                      ⟨[("this", .inst 0)], some 0⟩]
         , fns := [⟨.mk (tok .identifier "m") [] [], 0, false⟩,
                   ⟨.mk (tok .identifier "m") [] [], 2, false⟩]
         , clss := [⟨"A", none, [("m", 0)]⟩]
         , insts := [⟨0, []⟩], env := 1, locals := [(99, 1)], output := [] }) := by
  exact ((c4_super_dispatch 0
    { frames := [⟨[("super", .cls 0)], none⟩, ⟨[("this", .inst 0)], some 0⟩]
    , fns := [⟨.mk (tok .identifier "m") [] [], 0, false⟩]
    , clss := [⟨"A", none, [("m", 0)]⟩]
    , insts := [⟨0, []⟩], env := 1, locals := [(99, 1)], output := [] }
    (tok .superK "super") (tok .identifier "m") 99 1 0 0 0
    ⟨.mk (tok .identifier "m") [] [], 0, false⟩
    (by decide) (by decide) (by decide) (by decide) rfl).1)

/-- C6: executing a Block runs its statements under a fresh frame enclosed by
the current frame, and on every exit path — normal completion, a return
unwinding through the block, a runtime error (and even fuel exhaustion) —
the evaluator's current-environment pointer is restored to its pre-block
value. -/
theorem c6_block_env_restored (fuel : Nat) (stmts : List Stmt) (s : St) :
    (∀ envRef, ((execBlock fuel stmts envRef s).2).env = s.env) ∧
    execStmt (fuel + 1) (.block stmts) s
      = execBlock fuel stmts s.frames.length
          { s with frames := s.frames ++ [⟨[], some s.env⟩] } := by
  constructor
  · intro envRef
    match fuel with
    | 0 => rfl
    | f + 1 =>
      cases hx : execStmts f stmts { s with env := envRef } with
      | mk res s1 => simp [execBlock, hx]
  · rfl

/-- C7: with two number operands, `/` raises "division by zero" exactly when
the right operand is zero and otherwise returns the quotient; `%` raises
"modulo by zero" exactly when the right operand is zero and otherwise
returns the Python remainder; with any non-number operand both raise the
runtime error "operands must be numbers" (a `RiftRuntimeError`, which the
driver catches — the run aborts but the process survives). -/
theorem c7_division_modulo_by_zero (tokD tokM : Token) (a b : Rat) (l r : Value)
    (hD : tokD.type = .slash) (hM : tokM.type = .percent)
    (hNN : ∀ x y : Rat, ¬(l = .num x ∧ r = .num y)) :
    (evalBinary tokD (.num a) (.num b)
      = if b = 0 then .error (.rte tokD "division by zero") else .ok (.num (a / b))) ∧
    (evalBinary tokM (.num a) (.num b)
      = if b = 0 then .error (.rte tokM "modulo by zero") else .ok (.num (pyMod a b))) ∧
    evalBinary tokD l r = .error (.rte tokD "operands must be numbers") ∧
    evalBinary tokM l r = .error (.rte tokM "operands must be numbers") := by
  refine ⟨?_, ?_, ?_, ?_⟩
  · simp only [evalBinary, hD, checkNumbers, Except.bind]
  · simp only [evalBinary, hM, checkNumbers, Except.bind]
  · cases l <;> cases r <;>
      first
      | exact absurd ⟨rfl, rfl⟩ (hNN _ _)
      | simp only [evalBinary, hD, checkNumbers, Except.bind]
  · cases l <;> cases r <;>
      first
      | exact absurd ⟨rfl, rfl⟩ (hNN _ _)
      | simp only [evalBinary, hM, checkNumbers, Except.bind]

theorem c7_division_modulo_by_zero_witness :
    (evalBinary (tok .slash "/") (.num 6) (.num 3) = .ok (.num 2)) ∧
    (evalBinary (tok .slash "/") (.num 6) (.num 0)
      = .error (.rte (tok .slash "/") "division by zero")) ∧
    (evalBinary (tok .percent "%") (.num 7) (.num 2) = .ok (.num 1)) ∧
    (evalBinary (tok .percent "%") (.num 7) (.num 0)
      = .error (.rte (tok .percent "%") "modulo by zero")) ∧
    evalBinary (tok .slash "/") (.str "a") (.num 1)
      = .error (.rte (tok .slash "/") "operands must be numbers") := by
  have h63 := c7_division_modulo_by_zero (tok .slash "/") (tok .percent "%") 6 3
    (.str "a") (.num 1) rfl rfl (fun x y h => Value.noConfusion h.1)
  have h60 := c7_division_modulo_by_zero (tok .slash "/") (tok .percent "%") 6 0
    (.str "a") (.num 1) rfl rfl (fun x y h => Value.noConfusion h.1)
  have h72 := c7_division_modulo_by_zero (tok .slash "/") (tok .percent "%") 7 2
    (.str "a") (.num 1) rfl rfl (fun x y h => Value.noConfusion h.1)
  have h70 := c7_division_modulo_by_zero (tok .slash "/") (tok .percent "%") 7 0
    (.str "a") (.num 1) rfl rfl (fun x y h => Value.noConfusion h.1)
  refine ⟨?_, ?_, ?_, ?_, h63.2.2.1⟩
  · rw [h63.1]; norm_num
  · rw [h60.1]; norm_num
  · rw [h72.2.1]; norm_num [pyMod]
  · rw [h70.2.1]; norm_num

/-- `List.get?` is unchanged by appending, at indices the original list
answers. -/
theorem getElem_append_lt {α : Type} (l ext : List α) (n : Nat) (a : α)
    (h : l[n]? = some a) : (l ++ ext)[n]? = some a := by
  have hlt : n < l.length := by
    by_contra hge
    rw [List.getElem?_eq_none (Nat.le_of_not_lt hge)] at h
    cases h
  rw [List.getElem?_append_left hlt]
  exact h

theorem ancestorA_stable (s t : St) (ext : List Frame)
    (hfr : t.frames = s.frames ++ ext) :
    ∀ (d r a : Nat), ancestorA d s r = some a →
      ancestorA d t r = some a := by
  intro d
  induction d with
  | zero => intro r a h; simpa [ancestorA] using h
  | succ d ih =>
    intro r a h
    simp only [ancestorA, List.get?_eq_getElem?] at h ⊢
    cases hg : s.frames[r]? with
    | none => simp [hg] at h
    | some f =>
      simp only [hg] at h
      cases he : f.enclosing with
      | none => simp [he] at h
      | some e =>
        simp only [he] at h
        rw [hfr]
        simp only [getElem_append_lt _ _ _ _ hg, he]
        exact ih e a h

theorem getAt_stable (s t : St) (ext : List Frame)
    (hfr : t.frames = s.frames ++ ext)
    (r d : Nat) (n : String) (v : Value)
    (h : getAt s r d n = some v) : getAt t r d n = some v := by
  simp only [getAt, List.get?_eq_getElem?] at h ⊢
  cases ha : ancestorA d s r with
  | none => simp [ha] at h
  | some a =>
    simp only [ha] at h
    cases hg : s.frames[a]? with
    | none => simp [hg] at h
    | some f =>
      simp only [hg, Option.some_bind] at h
      simp only [ancestorA_stable s t ext hfr d r a ha, hfr,
        getElem_append_lt _ _ _ _ hg, Option.some_bind]
      exact h

theorem lookupVariable_stable (s t : St) (ext : List Frame)
    (hfr : t.frames = s.frames ++ ext) (hl : t.locals = s.locals) (he : t.env = s.env)
    (x : Token) (eid d : Nat) (v : Value)
    (hd : s.locals.lookup eid = some d)
    (hv : getAt s s.env d x.lexeme = some v) :
    lookupVariable t x eid = .ok v := by
  simp only [lookupVariable, hl, hd, he,
    getAt_stable s t ext hfr s.env d x.lexeme v hv]

theorem findMethodA_stable (s t : St) (hc : t.clss = s.clss) :
    ∀ (b c : Nat) (n : String), findMethodA b t c n = findMethodA b s c n := by
  intro b
  induction b with
  | zero => intro c n; rfl
  | succ b ih =>
    intro c n
    simp only [findMethodA, hc]
    repeat' split
    all_goals first | rfl | exact ih _ _

theorem findMethod_stable (s t : St) (hc : t.clss = s.clss) (c : Nat) (n : String) :
    findMethod t c n = findMethod s c n := by
  simp only [findMethod, hc, findMethodA_stable s t hc]

theorem instGet_fresh (s : St) (iRef fRef : Nat) (m : Token) (iob : InstObj) (fob : FnObj)
    (hio : s.insts.get? iRef = some iob)
    (hnf : iob.fields.lookup m.lexeme = none)
    (hfm : findMethod s iob.klass m.lexeme = some fRef)
    (hfob : s.fns.get? fRef = some fob) :
    instGet s iRef m = (.ok (.fn s.fns.length),
      { s with
        frames := s.frames ++ [⟨[("this", .inst iRef)], some fob.closure⟩]
        fns := s.fns ++ [⟨fob.decl, s.frames.length, fob.isInitializer⟩] }) := by
  have hio2 : s.insts[iRef]? = some iob := by
    simpa [List.get?_eq_getElem?] using hio
  have hfob2 : s.fns[fRef]? = some fob := by
    simpa [List.get?_eq_getElem?] using hfob
  simp [instGet, hio2, hnf, hfm, bindMethod, hfob2, allocFrame, allocFn,
    envDefine, setFrame, get_append_length, set_append_length, dictSet]

/-- C10: each evaluation of the property access `i.m` — the instance's field
map lacking `m`, the class chain providing it — allocates a fresh bound
function: a new closure frame binding `"this"` to the instance and a new
function object sharing the method's declaration and initializer flag.
Evaluating `i.m == i.m` therefore compares two distinct function references,
and since equality on function values is identity, it yields `false`, even
though the two bound methods are behaviorally identical (same declaration,
same flag, closure frames of identical contents). -/
theorem c10_bound_methods_distinct (fuel : Nat) (s : St) (x m eqTok : Token)
    (eid d iRef fRef : Nat) (iob : InstObj) (fob : FnObj)
    (heq : eqTok.type = .equalEqual)
    (hd : s.locals.lookup eid = some d)
    (hx : getAt s s.env d x.lexeme = some (.inst iRef))
    (hio : s.insts.get? iRef = some iob)
    (hnf : iob.fields.lookup m.lexeme = none)
    (hfm : findMethod s iob.klass m.lexeme = some fRef)
    (hfob : s.fns.get? fRef = some fob) :
    instGet s iRef m = (.ok (.fn s.fns.length),
      { s with
        frames := s.frames ++ [⟨[("this", .inst iRef)], some fob.closure⟩]
        fns := s.fns ++ [⟨fob.decl, s.frames.length, fob.isInitializer⟩] }) ∧
    evalExpr (fuel + 1 + 1 + 1)
        (.binary (.get (.variable x eid) m) eqTok (.get (.variable x eid) m)) s
      = (.ok (.bool false),
         { s with
           frames := s.frames ++ [⟨[("this", .inst iRef)], some fob.closure⟩,
                                  ⟨[("this", .inst iRef)], some fob.closure⟩]
           fns := s.fns ++ [⟨fob.decl, s.frames.length, fob.isInitializer⟩,
                            ⟨fob.decl, s.frames.length + 1, fob.isInitializer⟩] }) := by
  have hfresh := instGet_fresh s iRef fRef m iob fob hio hnf hfm hfob
  refine ⟨hfresh, ?_⟩
  have hlook1 : lookupVariable s x eid = .ok (.inst iRef) := by
    simp [lookupVariable, hd, hx]
  set sA : St :=
    { s with
      frames := s.frames ++ [⟨[("this", .inst iRef)], some fob.closure⟩]
      fns := s.fns ++ [⟨fob.decl, s.frames.length, fob.isInitializer⟩] } with hsA
  have hlook2 : lookupVariable sA x eid = .ok (.inst iRef) :=
    lookupVariable_stable s sA _ rfl rfl rfl x eid d _ hd hx
  have hfob2 : sA.fns.get? fRef = some fob := by
    simp only [List.get?_eq_getElem?] at hfob ⊢
    exact getElem_append_lt _ _ _ _ hfob
  have hfresh2 := instGet_fresh sA iRef fRef m iob fob
    (by simpa using hio) hnf
    (by rw [findMethod_stable s sA rfl]; exact hfm)
    hfob2
  simp only [evalExpr, hlook1, hfresh, hlook2, hfresh2, evalBinary, heq, isEqual]
  simp [hsA, List.append_assoc]

theorem c10_bound_methods_distinct_witness :
    instGet
        { frames := [⟨[("i", .inst 0)], none⟩]
        , fns := [⟨.mk (tok .identifier "m") [] [], 0, false⟩]
        , clss := [⟨"A", none, [("m", 0)]⟩]
        , insts := [⟨0, []⟩], env := 0, locals := [(5, 0)], output := [] }
        0 (tok .identifier "m")
      = (.ok (.fn 1),
         { frames := [⟨[("i", .inst 0)], none⟩, ⟨[("this", .inst 0)], some 0⟩]
         , fns := [⟨.mk (tok .identifier "m") [] [], 0, false⟩,
                   ⟨.mk (tok .identifier "m") [] [], 1, false⟩]
         , clss := [⟨"A", none, [("m", 0)]⟩]
         , insts := [⟨0, []⟩], env := 0, locals := [(5, 0)], output := [] }) ∧
    evalExpr 3
        (.binary (.get (.variable (tok .identifier "i") 5) (tok .identifier "m"))
          (tok .equalEqual "==")
          (.get (.variable (tok .identifier "i") 5) (tok .identifier "m")))
        { frames := [⟨[("i", .inst 0)], none⟩]
        , fns := [⟨.mk (tok .identifier "m") [] [], 0, false⟩]
        , clss := [⟨"A", none, [("m", 0)]⟩]
        , insts := [⟨0, []⟩], env := 0, locals := [(5, 0)], output := [] }
      = (.ok (.bool false),
         { frames := [⟨[("i", .inst 0)], none⟩, ⟨[("this", .inst 0)], some 0⟩,
                      ⟨[("this", .inst 0)], some 0⟩]
         , fns := [⟨.mk (tok .identifier "m") [] [], 0, false⟩,
                   ⟨.mk (tok .identifier "m") [] [], 1, false⟩,
                   ⟨.mk (tok .identifier "m") [] [], 2, false⟩]
         , clss := [⟨"A", none, [("m", 0)]⟩]
         , insts := [⟨0, []⟩], env := 0, locals := [(5, 0)], output := [] }) := by
  exact c10_bound_methods_distinct 0
    { frames := [⟨[("i", .inst 0)], none⟩]
    , fns := [⟨.mk (tok .identifier "m") [] [], 0, false⟩]
    , clss := [⟨"A", none, [("m", 0)]⟩]
    , insts := [⟨0, []⟩], env := 0, locals := [(5, 0)], output := [] }
    (tok .identifier "i") (tok .identifier "m") (tok .equalEqual "==")
    5 0 0 0 ⟨0, []⟩ ⟨.mk (tok .identifier "m") [] [], 0, false⟩
    rfl rfl rfl rfl rfl rfl rfl

/-- C8 (counterexample): scanning the one-character source `"é"` (a
non-ASCII letter) records NO scan error and emits an identifier token:
CPython\x27s `str.isalpha` accepts it, so the identifier path, not the
error path, runs.  This refutes the ASCII-only identifier grammar
`[A-Za-z_][A-Za-z0-9_]*` as well as the claim that any non-ASCII letter
begins no token and is reported as a scan error. -/
theorem c8_counterexample :
    (scanTokens cpyHost "é").errors = [] ∧
    (scanTokens cpyHost "é").tokens
      = [⟨.identifier, "é", none, 1, 1⟩, ⟨.eof, "", none, 1, 2⟩] := by decide

theorem identLoop_munch (H : HostChar) :
    ∀ (b : Nat) (s : Scn), s.src.length - s.current ≤ b →
      identLoop H b s
        = { s with current := s.current + munchLen H s
                 , column := s.column + munchLen H s } := by
  intro b
  induction b with
  | zero =>
    intro s hb
    have hle : s.src.length ≤ s.current := by omega
    simp [identLoop, munchLen, List.drop_eq_nil_of_le hle]
  | succ b ih =>
    intro s hb
    rw [identLoop]
    by_cases hend : s.src.length ≤ s.current
    · have hae : atEnd s = true := by simp [atEnd, hend]
      simp [hae, munchLen, List.drop_eq_nil_of_le hend]
    · have hlt : s.current < s.src.length := Nat.lt_of_not_le hend
      have hae : atEnd s = false := by simp [atEnd]; omega
      have hpk : peekc s = s.src[s.current] := by
        simp [peekc, hae, charAt, List.getD]
        rw [List.getElem?_eq_getElem hlt]
        rfl
      have hdrop : s.src.drop s.current = s.src[s.current] :: s.src.drop (s.current + 1) :=
        List.drop_eq_getElem_cons hlt
      rw [hae, hpk]
      simp only [Bool.not_false, Bool.true_and]
      by_cases hcond : (H.isAlnum (s.src[s.current]) || s.src[s.current] == '_') = true
      · rw [if_pos hcond]
        have hrem : (stepc s).src.length - (stepc s).current ≤ b := by
          simp only [stepc]
          omega
        rw [ih (stepc s) hrem]
        have hm : munchLen H s = munchLen H (stepc s) + 1 := by
          simp only [munchLen, stepc, hdrop, List.takeWhile_cons, hcond, if_true,
            List.length_cons]
        rw [hm]
        simp only [stepc]
        congr 1 <;> omega
      · rw [if_neg hcond]
        have hx : (H.isAlnum (s.src[s.current]) || s.src[s.current] == '_') = false := by
          simpa using hcond
        have hm : munchLen H s = 0 := by
          simp only [munchLen, hdrop, List.takeWhile_cons, hx]
          simp
        rw [hm]
        simp

theorem scanToken_default (H : HostChar) (s : Scn)
    (hc : charAt s ∉ ['(', ')', '{', '}', ',', '.', '-', '+', ';', '*', '%',
                      '!', '=', '<', '>', '/', ' ', '\r', '\t', '\n', '"'])
    (hd : H.isDigit (charAt s) = false) :
    scanToken H s =
      if H.isAlpha (charAt s) || charAt s == '_' then identScan H (stepc s)
      else { s with current := s.current + 1, column := s.column + 1
                  , errors := s.errors ++ [(s.line, s.column,
                      "unexpected character " ++ charRepr (charAt s))] } := by
  simp only [scanToken]
  split
  any_goals (simp_all; done)
  rw [hd]
  simp [addScanErr, stepc]

/-- C8 (amended): `Scanner._scan_token` classifies by the HOST character
classifiers, not an ASCII table: a character that matches none of the
punctuation, comment, quote or whitespace cases and is not host-`isdigit`
begins an identifier exactly when it is host-`isalpha` or an underscore, and
otherwise records a scan error carrying that character\x27s line and column
while the cursor advances past it, so scanning continues.  The identifier
path consumes the maximal run of host-alphanumerics and underscores
(`munchLen`), and the keyword table then decides the token kind.  On ASCII
input this start/continue rule is exactly `[A-Za-z_][A-Za-z0-9_]*`, but the
host accepts further letters (see `c8_counterexample`).  Concretely, the
source `"@x"` yields the error `(1, 1, unexpected character \x27@\x27)` and
still scans `x` as an identifier at column 2. -/
theorem c8_scan_classification (H : HostChar) (s u : Scn)
    (hc : charAt s ∉ ['(', ')', '{', '}', ',', '.', '-', '+', ';', '*', '%',
                      '!', '=', '<', '>', '/', ' ', '\r', '\t', '\n', '"'])
    (hd : H.isDigit (charAt s) = false) :
    (scanToken H s =
      if H.isAlpha (charAt s) || charAt s == '_' then identScan H (stepc s)
      else { s with current := s.current + 1, column := s.column + 1
                  , errors := s.errors ++ [(s.line, s.column,
                      "unexpected character " ++ charRepr (charAt s))] }) ∧
    (identLoop H (u.src.length + 1) u
      = { u with current := u.current + munchLen H u
               , column := u.column + munchLen H u }) ∧
    (identScan H u
      = addToken
          { u with current := u.current + munchLen H u
                 , column := u.column + munchLen H u }
          ((KEYWORDS.lookup ⟨sliceLex
              { u with current := u.current + munchLen H u
                     , column := u.column + munchLen H u }⟩).getD .identifier)
          none) ∧
    ((scanTokens cpyHost "@x").errors = [(1, 1, "unexpected character \x27@\x27")] ∧
     (scanTokens cpyHost "@x").tokens
       = [⟨.identifier, "x", none, 1, 2⟩, ⟨.eof, "", none, 1, 3⟩]) := by
  refine ⟨scanToken_default H s hc hd, identLoop_munch H _ u (by omega), ?_, by decide⟩
  simp only [identScan, identLoop_munch H (u.src.length + 1) u (by omega)]

theorem c8_scan_classification_witness :
    scanToken cpyHost (initScn "@")
      = { src := ['@'], tokens := [], start := 0, current := 1, line := 1, column := 2
        , errors := [(1, 1, "unexpected character \x27@\x27")] } ∧
    identScan cpyHost (initScn "xy1 z")
      = { src := "xy1 z".data, tokens := [⟨.identifier, "xy1", none, 1, 1⟩], start := 0
        , current := 3, line := 1, column := 4, errors := [] } := by
  have h := c8_scan_classification cpyHost (initScn "@") (initScn "xy1 z")
    (by decide) (by decide)
  constructor
  · rw [h.1]; rfl
  · rw [h.2.2.1]; rfl


theorem rPres_refl (a : RSt) : rPres a a := ⟨⟨[], by simp⟩, rfl, rfl⟩

theorem rPres_trans {a b c : RSt} (h1 : rPres a b) (h2 : rPres b c) : rPres a c := by
  obtain ⟨⟨l1, he1⟩, hf1, hc1⟩ := h1
  obtain ⟨⟨l2, he2⟩, hf2, hc2⟩ := h2
  exact ⟨⟨l1 ++ l2, by rw [he2, he1, List.append_assoc]⟩, hf2.trans hf1, hc2.trans hc1⟩

theorem rPres_addErr (r : RSt) (t : Token) (m : String) : rPres r (rAddErr r t m) :=
  ⟨⟨[(t, m)], rfl⟩, rfl, rfl⟩

theorem rPres_beginScope (r : RSt) : rPres r (rBeginScope r) := ⟨⟨[], by simp [rBeginScope]⟩, rfl, rfl⟩

theorem rPres_endScope (r : RSt) : rPres r (rEndScope r) := ⟨⟨[], by simp [rEndScope]⟩, rfl, rfl⟩

theorem rPres_declare (r : RSt) (n : Token) : rPres r (rDeclare r n) := by
  unfold rDeclare
  cases r.scopes with
  | nil => exact rPres_refl r
  | cons scope rest =>
    by_cases h : (scope.lookup n.lexeme).isSome
    · simp only [h, if_true]
      exact ⟨⟨[(n, "variable \x27" ++ n.lexeme ++ "\x27 already declared in this scope")],
        rfl⟩, rfl, rfl⟩
    · simp only [h, if_false]
      exact ⟨⟨[], by simp⟩, rfl, rfl⟩

theorem rPres_define (r : RSt) (n : Token) : rPres r (rDefine r n) := by
  unfold rDefine
  cases r.scopes with
  | nil => exact rPres_refl r
  | cons scope rest => exact ⟨⟨[], by simp⟩, rfl, rfl⟩

theorem rPres_setTop (r : RSt) (k : String) : rPres r (rSetTop r k) := by
  unfold rSetTop
  cases r.scopes with
  | nil => exact rPres_refl r
  | cons scope rest => exact ⟨⟨[], by simp⟩, rfl, rfl⟩

theorem rPres_resolveLocal (r : RSt) (eid : Nat) (n : Token) :
    rPres r (rResolveLocal r eid n) := by
  unfold rResolveLocal
  cases scopeIndex r.scopes n.lexeme with
  | none => exact rPres_refl r
  | some d => exact ⟨⟨[], by simp⟩, rfl, rfl⟩

mutual

theorem resolveExpr_pres : ∀ (e : Expr) (r : RSt), rPres r (resolveExpr e r)
  | .variable name eid, r => by
    simp only [resolveExpr]
    refine rPres_trans ?_ (rPres_resolveLocal _ eid name)
    cases r.scopes with
    | nil => exact rPres_refl r
    | cons scope rest =>
      by_cases h : scope.lookup name.lexeme = some false
      · simp only [h, if_true]
        exact rPres_addErr r name "cannot read variable in its own initializer"
      · simp only [h, if_false]
        exact rPres_refl r
  | .assign name value eid, r => by
    simp only [resolveExpr]
    exact rPres_trans (resolveExpr_pres value r) (rPres_resolveLocal _ eid name)
  | .binary left _ right, r => by
    simp only [resolveExpr]
    exact rPres_trans (resolveExpr_pres left r) (resolveExpr_pres right _)
  | .unary _ operand, r => by
    simp only [resolveExpr]
    exact resolveExpr_pres operand r
  | .logical left _ right, r => by
    simp only [resolveExpr]
    exact rPres_trans (resolveExpr_pres left r) (resolveExpr_pres right _)
  | .call callee args _, r => by
    simp only [resolveExpr]
    exact rPres_trans (resolveExpr_pres callee r) (resolveExprs_pres args _)
  | .get obj _, r => by
    simp only [resolveExpr]
    exact resolveExpr_pres obj r
  | .set obj _ value, r => by
    simp only [resolveExpr]
    exact rPres_trans (resolveExpr_pres value r) (resolveExpr_pres obj _)
  | .grouping e, r => by
    simp only [resolveExpr]
    exact resolveExpr_pres e r
  | .lit _, r => by
    simp only [resolveExpr]
    exact rPres_refl r
  | .this keyword eid, r => by
    simp only [resolveExpr]
    refine rPres_trans ?_ (rPres_resolveLocal _ eid keyword)
    by_cases h : r.currentClass = .none
    · simp only [h, if_true]
      exact rPres_addErr r keyword "cannot use \x27this\x27 outside of a class"
    · simp only [h, if_false]
      exact rPres_refl r
  | .superE keyword _ eid, r => by
    simp only [resolveExpr]
    refine rPres_trans ?_ (rPres_resolveLocal _ eid keyword)
    by_cases h : r.currentClass = .none
    · simp only [h, if_true]
      exact rPres_addErr r keyword "cannot use \x27super\x27 outside of a class"
    · simp only [h, if_false]
      by_cases h2 : r.currentClass ≠ .subclass
      · rw [if_pos h2]
        exact rPres_addErr r keyword "cannot use \x27super\x27 in a class with no superclass"
      · rw [if_neg h2]
        exact rPres_refl r

theorem resolveExprs_pres : ∀ (es : List Expr) (r : RSt), rPres r (resolveExprs es r)
  | [], r => by
    simp only [resolveExprs]
    exact rPres_refl r
  | e :: rest, r => by
    simp only [resolveExprs]
    exact rPres_trans (resolveExpr_pres e r) (resolveExprs_pres rest _)

end


theorem rMono_refl (a : RSt) : rMono a a := ⟨⟨[], by simp⟩, rfl⟩

theorem rMono_trans {a b c : RSt} (h1 : rMono a b) (h2 : rMono b c) : rMono a c := by
  obtain ⟨⟨l1, he1⟩, hf1⟩ := h1
  obtain ⟨⟨l2, he2⟩, hf2⟩ := h2
  exact ⟨⟨l1 ++ l2, by rw [he2, he1, List.append_assoc]⟩, hf2.trans hf1⟩

theorem rMono_of_rPres {a b : RSt} (h : rPres a b) : rMono a b := ⟨h.1, h.2.1⟩

theorem rMono_cc (r : RSt) (c : ClsType) : rMono r { r with currentClass := c } :=
  ⟨⟨[], by simp⟩, rfl⟩

theorem rMono_iteAddErr (r : RSt) (c : Prop) [Decidable c] (t : Token) (m : String) :
    rMono r (if c then rAddErr r t m else r) := by
  split
  · exact ⟨⟨[(t, m)], rfl⟩, rfl⟩
  · exact rMono_refl r

theorem rPres_foldlParams (ps : List Token) : ∀ r : RSt,
    rPres r (ps.foldl (fun acc p => rDefine (rDeclare acc p) p) r) := by
  induction ps with
  | nil => intro r; exact rPres_refl r
  | cons p rest ih =>
    intro r
    simp only [List.foldl_cons]
    exact rPres_trans (rPres_trans (rPres_declare r p) (rPres_define _ p)) (ih _)

mutual

theorem resolveStmt_pres : ∀ (st : Stmt) (r : RSt), rPres r (resolveStmt st r)
  | .block stmts, r => by
    simp only [resolveStmt]
    exact rPres_trans (rPres_trans (rPres_beginScope r) (resolveStmts_pres stmts _))
      (rPres_endScope _)
  | .letS name initializer, r => by
    simp only [resolveStmt]
    cases initializer with
    | none =>
      exact rPres_trans (rPres_declare r name) (rPres_define _ name)
    | some e =>
      exact rPres_trans (rPres_trans (rPres_declare r name) (resolveExpr_pres e _))
        (rPres_define _ name)
  | .function d, r => by
    simp only [resolveStmt]
    exact rPres_trans (rPres_trans (rPres_declare r _) (rPres_define _ _))
      (resolveFn_pres d .function _)
  | .expression e, r => by
    simp only [resolveStmt]
    exact resolveExpr_pres e r
  | .ifS cond thenB elseB, r => by
    cases elseB with
    | none =>
      simp only [resolveStmt]
      exact rPres_trans (resolveExpr_pres cond r) (resolveStmt_pres thenB _)
    | some el =>
      simp only [resolveStmt]
      exact rPres_trans (rPres_trans (resolveExpr_pres cond r) (resolveStmt_pres thenB _))
        (resolveStmt_pres el _)
  | .print e, r => by
    simp only [resolveStmt]
    exact resolveExpr_pres e r
  | .returnS keyword value, r => by
    simp only [resolveStmt]
    have h1 : rPres r (if r.currentFunction = .none then
        rAddErr r keyword "cannot return from top-level code" else r) := by
      split
      · exact rPres_addErr r keyword "cannot return from top-level code"
      · exact rPres_refl r
    cases value with
    | none => exact h1
    | some e =>
      set r1 := if r.currentFunction = .none then
        rAddErr r keyword "cannot return from top-level code" else r with hr1
      refine rPres_trans (rPres_trans h1 ?_) (resolveExpr_pres e _)
      by_cases h2 : r1.currentFunction = .initializer
      · rw [if_pos h2]
        exact rPres_addErr r1 keyword "cannot return a value from an initializer"
      · rw [if_neg h2]
        exact rPres_refl r1
  | .whileS cond body, r => by
    simp only [resolveStmt]
    exact rPres_trans (resolveExpr_pres cond r) (resolveStmt_pres body _)
  | .classS name superclass methods, r => by
    simp only [resolveStmt]
    cases superclass with
    | none =>
      have hm : rMono r (resolveMethods methods
          (rSetTop (rBeginScope
            (rDefine (rDeclare { r with currentClass := .cls } name) name)) "this")) :=
        rMono_trans (rMono_cc r .cls)
          (rMono_trans (rMono_of_rPres
            (rPres_trans (rPres_declare _ name) (rPres_define _ name)))
          (rMono_trans (rMono_of_rPres
            (rPres_trans (rPres_beginScope _) (rPres_setTop _ "this")))
          (rMono_of_rPres (resolveMethods_pres methods _))))
      obtain ⟨⟨L, hL⟩, hF⟩ := hm
      exact ⟨⟨L, hL⟩, hF, rfl⟩
    | some sup =>
      obtain ⟨supName, supEid⟩ := sup
      simp only
      have hm : rMono r (resolveMethods methods
          (rSetTop (rBeginScope
            (rSetTop (rBeginScope
              (resolveExpr (.variable supName supEid)
                { (if supName.lexeme = name.lexeme then
                    rAddErr (rDefine (rDeclare { r with currentClass := .cls } name) name)
                      supName "a class cannot inherit from itself"
                   else rDefine (rDeclare { r with currentClass := .cls } name) name) with
                  currentClass := .subclass })) "super")) "this")) :=
        rMono_trans (rMono_cc r .cls)
          (rMono_trans (rMono_of_rPres
            (rPres_trans (rPres_declare _ name) (rPres_define _ name)))
          (rMono_trans (rMono_iteAddErr _ _ supName "a class cannot inherit from itself")
          (rMono_trans (rMono_cc _ .subclass)
          (rMono_trans (rMono_of_rPres (resolveExpr_pres (.variable supName supEid) _))
          (rMono_trans (rMono_of_rPres
            (rPres_trans (rPres_beginScope _) (rPres_setTop _ "super")))
          (rMono_trans (rMono_of_rPres
            (rPres_trans (rPres_beginScope _) (rPres_setTop _ "this")))
          (rMono_of_rPres (resolveMethods_pres methods _))))))))
      obtain ⟨⟨L, hL⟩, hF⟩ := hm
      exact ⟨⟨L, hL⟩, hF, rfl⟩

theorem resolveStmts_pres : ∀ (l : List Stmt) (r : RSt), rPres r (resolveStmts l r)
  | [], r => by
    simp only [resolveStmts]
    exact rPres_refl r
  | st :: rest, r => by
    simp only [resolveStmts]
    exact rPres_trans (resolveStmt_pres st r) (resolveStmts_pres rest _)

theorem resolveMethods_pres : ∀ (ms : List FuncDecl) (r : RSt), rPres r (resolveMethods ms r)
  | [], r => by
    simp only [resolveMethods]
    exact rPres_refl r
  | m :: rest, r => by
    simp only [resolveMethods]
    exact rPres_trans (resolveFn_pres m _ r) (resolveMethods_pres rest _)

theorem resolveFn_pres : ∀ (d : FuncDecl) (ft : FnType) (r : RSt), rPres r (resolveFn d ft r)
  | .mk n params body, ft, r => by
    simp only [resolveFn]
    have h2 : rPres (rBeginScope { r with currentFunction := ft })
        (params.foldl (fun acc p => rDefine (rDeclare acc p) p)
          (rBeginScope { r with currentFunction := ft })) :=
      rPres_foldlParams params _
    have h3 : rPres _ (resolveStmts body
        (params.foldl (fun acc p => rDefine (rDeclare acc p) p)
          (rBeginScope { r with currentFunction := ft }))) :=
      resolveStmts_pres body _
    obtain ⟨⟨l2, he2⟩, hf2, hc2⟩ := h2
    obtain ⟨⟨l3, he3⟩, hf3, hc3⟩ := h3
    refine ⟨⟨l2 ++ l3, ?_⟩, rfl, ?_⟩
    · show (resolveStmts body _).errors = r.errors ++ (l2 ++ l3)
      rw [he3, he2]
      simp [rBeginScope, List.append_assoc]
    · show (resolveStmts body _).currentClass = r.currentClass
      rw [hc3, hc2]
      rfl

end

theorem mem_errors_rMono {x : Token × String} {a b : RSt} (h : rMono a b)
    (hx : x ∈ a.errors) : x ∈ b.errors := by
  obtain ⟨⟨l, hl⟩, -⟩ := h
  rw [hl]
  exact List.mem_append_left _ hx

theorem resolveStmts_append (l1 l2 : List Stmt) : ∀ r : RSt,
    resolveStmts (l1 ++ l2) r = resolveStmts l2 (resolveStmts l1 r) := by
  induction l1 with
  | nil => intro r; simp [resolveStmts]
  | cons st rest ih =>
    intro r
    simp only [List.cons_append, resolveStmts]
    exact ih _

theorem resolveMethods_append (l1 l2 : List FuncDecl) : ∀ r : RSt,
    resolveMethods (l1 ++ l2) r = resolveMethods l2 (resolveMethods l1 r) := by
  induction l1 with
  | nil => intro r; simp [resolveMethods]
  | cons m rest ih =>
    intro r
    simp only [List.cons_append, resolveMethods]
    exact ih _

theorem resolveFn_init_return_err (n : Token) (params : List Token)
    (pre post : List Stmt) (kw : Token) (e : Expr) (r : RSt) :
    (kw, "cannot return a value from an initializer")
      ∈ (resolveFn (.mk n params (pre ++ .returnS kw (some e) :: post))
          .initializer r).errors := by
  simp only [resolveFn]
  set r2 := params.foldl (fun acc p => rDefine (rDeclare acc p) p)
    (rBeginScope { r with currentFunction := .initializer }) with hr2
  have hcf2 : r2.currentFunction = .initializer := by
    rw [hr2]
    exact (rPres_foldlParams params (rBeginScope
      { r with currentFunction := .initializer })).2.1
  rw [show (pre ++ .returnS kw (some e) :: post)
        = pre ++ ([Stmt.returnS kw (some e)] ++ post) from rfl,
      resolveStmts_append, resolveStmts_append]
  set rp := resolveStmts pre r2 with hrp
  have hcfp : rp.currentFunction = .initializer := by
    rw [hrp, (resolveStmts_pres pre r2).2.1]
    exact hcf2
  have hstep : resolveStmts [Stmt.returnS kw (some e)] rp
      = resolveExpr e (rAddErr rp kw "cannot return a value from an initializer") := by
    simp only [resolveStmts, resolveStmt]
    have hne : ¬(rp.currentFunction = FnType.none) := by
      rw [hcfp]
      decide
    have hinner : (if rp.currentFunction = FnType.none then
        rAddErr rp kw "cannot return from top-level code" else rp) = rp := if_neg hne
    rw [hinner, if_pos hcfp]
  rw [hstep]
  have hmem : (kw, "cannot return a value from an initializer")
      ∈ (rAddErr rp kw "cannot return a value from an initializer").errors := by
    simp [rAddErr]
  have h1 := mem_errors_rMono
    (rMono_of_rPres (resolveExpr_pres e
      (rAddErr rp kw "cannot return a value from an initializer"))) hmem
  have h2 := mem_errors_rMono
    (rMono_of_rPres (resolveStmts_pres post
      (resolveExpr e (rAddErr rp kw "cannot return a value from an initializer")))) h1
  exact h2

/-- C1: calling a class allocates a fresh instance; with no `init` on the
class chain the instance is returned directly; with an `init`, the
initializer is invoked bound to that fresh instance — the bound function
closes over a new frame holding `"this"` = the instance — and the instance
itself is the call\x27s result whatever the initializer run returned.
`RiftFunction.call` with the initializer flag set yields the closure
frame\x27s `"this"` on both the fall-through and the `ReturnException`
paths.  Finally the Resolver reports "cannot return a value from an
initializer" for a `return v;` written directly in the body of a method
named `init` of any class statement, at any position among the methods and
the body, whatever the incoming resolver state. -/
theorem c1_initializer_law (fuel : Nat) (s : St) (args : List Value)
    (rC rF : Nat) (k : ClsObj) (fob : FnObj)
    (cname nmI kw : Token) (params : List Token) (mpre mpost : List FuncDecl)
    (pre post : List Stmt) (e : Expr) (sup : Option (Token × Nat)) (r : RSt)
    (hk : s.clss.get? rC = some k)
    (hfob : s.fns.get? rF = some fob) (hinit : fob.isInitializer = true)
    (hnm : nmI.lexeme = "init") :
    (findMethod s rC "init" = none →
      callClass (fuel + 1) rC args s
        = (.ok (.inst s.insts.length), { s with insts := s.insts ++ [⟨rC, []⟩] })) ∧
    (∀ initRef iob w s3,
      findMethod s rC "init" = some initRef →
      s.fns.get? initRef = some iob →
      callFn fuel s.fns.length args
          { s with
            frames := s.frames ++ [⟨[("this", .inst s.insts.length)], some iob.closure⟩]
            fns := s.fns ++ [⟨iob.decl, s.frames.length, iob.isInitializer⟩]
            insts := s.insts ++ [⟨rC, []⟩] }
        = (.ok w, s3) →
      callClass (fuel + 1) rC args s = (.ok (.inst s.insts.length), s3)) ∧
    (∀ s3 t res,
      execBlock fuel (FuncDecl.body fob.decl) s.frames.length
          (bindParams s.frames.length (FuncDecl.params fob.decl) args
            { s with frames := s.frames ++ [⟨[], some fob.closure⟩] })
        = (res, s3) →
      getAt s3 fob.closure 0 "this" = some t →
      (res = .ok () ∨ (∃ rv, res = .error (.ret rv))) →
      callFn (fuel + 1) rF args s = (.ok t, s3)) ∧
    ((kw, "cannot return a value from an initializer")
      ∈ (resolveStmt (.classS cname sup
            (mpre ++ (.mk nmI params (pre ++ .returnS kw (some e) :: post)) :: mpost))
          r).errors) := by
  have hk2 : s.clss[rC]? = some k := by
    simpa [List.get?_eq_getElem?] using hk
  refine ⟨?_, ?_, ?_, ?_⟩
  · intro hni
    have hni2 : findMethod { s with insts := s.insts ++ [⟨rC, []⟩] } rC "init" = none := by
      rw [findMethod_stable s { s with insts := s.insts ++ [⟨rC, []⟩] } rfl]
      exact hni
    simp only [callClass, hk, allocInst, hni2]
  · intro initRef iob w s3 hini hiob hcall
    have hini2 : findMethod { s with insts := s.insts ++ [⟨rC, []⟩] } rC "init"
        = some initRef := by
      rw [findMethod_stable s { s with insts := s.insts ++ [⟨rC, []⟩] } rfl]
      exact hini
    simp only [callClass, hk, allocInst, hini2, bindMethod, hiob, allocFrame,
      allocFn, envDefine, setFrame, get_append_length, set_append_length, dictSet]
    rw [hcall]
  · intro s3 t res hexec hthis hshape
    simp only [callFn, hfob, allocFrame]
    rw [hexec]
    rcases hshape with hok | ⟨rv, hret⟩
    · subst hok
      simp only [hinit, if_true, hthis]
    · subst hret
      simp only [hinit, if_true, hthis]
  · have hm := resolveFn_init_return_err nmI params pre post kw e
    cases sup with
    | none =>
      simp only [resolveStmt]
      rw [resolveMethods_append mpre
        ((FuncDecl.mk nmI params (pre ++ .returnS kw (some e) :: post)) :: mpost)]
      simp only [resolveMethods, FuncDecl.name, hnm, if_true]
      exact mem_errors_rMono (rMono_of_rPres (resolveMethods_pres mpost _)) (hm _)
    | some sp =>
      obtain ⟨supName, supEid⟩ := sp
      simp only [resolveStmt]
      rw [resolveMethods_append mpre
        ((FuncDecl.mk nmI params (pre ++ .returnS kw (some e) :: post)) :: mpost)]
      simp only [resolveMethods, FuncDecl.name, hnm, if_true]
      exact mem_errors_rMono (rMono_of_rPres (resolveMethods_pres mpost _)) (hm _)

theorem c1_initializer_law_witness :
    callClass 1 0 []
        ⟨[⟨[("this", .inst 7)], none⟩], [⟨.mk (tok .identifier "init") [] [], 0, true⟩],
         [⟨"K", none, []⟩], [], 0, [], []⟩
      = (.ok (.inst 0),
         ⟨[⟨[("this", .inst 7)], none⟩], [⟨.mk (tok .identifier "init") [] [], 0, true⟩],
          [⟨"K", none, []⟩], [⟨0, []⟩], 0, [], []⟩) ∧
    callFn 4 0 []
        ⟨[⟨[("this", .inst 7)], none⟩], [⟨.mk (tok .identifier "init") [] [], 0, true⟩],
         [⟨"K", none, []⟩], [], 0, [], []⟩
      = (.ok (.inst 7),
         ⟨[⟨[("this", .inst 7)], none⟩, ⟨[], some 0⟩],
          [⟨.mk (tok .identifier "init") [] [], 0, true⟩],
          [⟨"K", none, []⟩], [], 0, [], []⟩) ∧
    callFn 6 1 []
        ⟨[⟨[], none⟩, ⟨[("this", .inst 0)], some 0⟩],
         [⟨.mk (tok .identifier "init") [] [.returnS (tok .returnK "return") none], 0, true⟩,
          ⟨.mk (tok .identifier "init") [] [.returnS (tok .returnK "return") none], 1, true⟩],
         [⟨"K", none, [("init", 0)]⟩], [⟨0, []⟩], 0, [], []⟩
      = (.ok (.inst 0),
         ⟨[⟨[], none⟩, ⟨[("this", .inst 0)], some 0⟩, ⟨[], some 1⟩],
          [⟨.mk (tok .identifier "init") [] [.returnS (tok .returnK "return") none], 0, true⟩,
           ⟨.mk (tok .identifier "init") [] [.returnS (tok .returnK "return") none], 1, true⟩],
          [⟨"K", none, [("init", 0)]⟩], [⟨0, []⟩], 0, [], []⟩) ∧
    callClass 7 0 []
        ⟨[⟨[], none⟩],
         [⟨.mk (tok .identifier "init") [] [.returnS (tok .returnK "return") none], 0, true⟩],
         [⟨"K", none, [("init", 0)]⟩], [], 0, [], []⟩
      = (.ok (.inst 0),
         ⟨[⟨[], none⟩, ⟨[("this", .inst 0)], some 0⟩, ⟨[], some 1⟩],
          [⟨.mk (tok .identifier "init") [] [.returnS (tok .returnK "return") none], 0, true⟩,
           ⟨.mk (tok .identifier "init") [] [.returnS (tok .returnK "return") none], 1, true⟩],
          [⟨"K", none, [("init", 0)]⟩], [⟨0, []⟩], 0, [], []⟩) ∧
    (tok .returnK "return", "cannot return a value from an initializer")
      ∈ (resolveStmt
          (.classS (tok .identifier "K") none
            [.mk (tok .identifier "init") []
              [.returnS (tok .returnK "return") (some (.lit .nil))]])
          initR).errors := by
  refine ⟨?_, ?_, ?_, ?_, ?_⟩
  · exact (c1_initializer_law 0
      ⟨[⟨[("this", .inst 7)], none⟩], [⟨.mk (tok .identifier "init") [] [], 0, true⟩],
       [⟨"K", none, []⟩], [], 0, [], []⟩
      [] 0 0 ⟨"K", none, []⟩ ⟨.mk (tok .identifier "init") [] [], 0, true⟩
      (tok .identifier "K") (tok .identifier "init") (tok .returnK "return")
      [] [] [] [] [] (.lit .nil) none initR rfl rfl rfl rfl).1 rfl
  · exact (c1_initializer_law 3
      ⟨[⟨[("this", .inst 7)], none⟩], [⟨.mk (tok .identifier "init") [] [], 0, true⟩],
       [⟨"K", none, []⟩], [], 0, [], []⟩
      [] 0 0 ⟨"K", none, []⟩ ⟨.mk (tok .identifier "init") [] [], 0, true⟩
      (tok .identifier "K") (tok .identifier "init") (tok .returnK "return")
      [] [] [] [] [] (.lit .nil) none initR rfl rfl rfl rfl).2.2.1
      ⟨[⟨[("this", .inst 7)], none⟩, ⟨[], some 0⟩],
       [⟨.mk (tok .identifier "init") [] [], 0, true⟩],
       [⟨"K", none, []⟩], [], 0, [], []⟩
      (.inst 7) (.ok ()) rfl rfl (Or.inl rfl)
  · exact (c1_initializer_law 5
      ⟨[⟨[], none⟩, ⟨[("this", .inst 0)], some 0⟩],
       [⟨.mk (tok .identifier "init") [] [.returnS (tok .returnK "return") none], 0, true⟩,
        ⟨.mk (tok .identifier "init") [] [.returnS (tok .returnK "return") none], 1, true⟩],
       [⟨"K", none, [("init", 0)]⟩], [⟨0, []⟩], 0, [], []⟩
      [] 0 1 ⟨"K", none, [("init", 0)]⟩
      ⟨.mk (tok .identifier "init") [] [.returnS (tok .returnK "return") none], 1, true⟩
      (tok .identifier "K") (tok .identifier "init") (tok .returnK "return")
      [] [] [] [] [] (.lit .nil) none initR rfl rfl rfl rfl).2.2.1
      ⟨[⟨[], none⟩, ⟨[("this", .inst 0)], some 0⟩, ⟨[], some 1⟩],
       [⟨.mk (tok .identifier "init") [] [.returnS (tok .returnK "return") none], 0, true⟩,
        ⟨.mk (tok .identifier "init") [] [.returnS (tok .returnK "return") none], 1, true⟩],
       [⟨"K", none, [("init", 0)]⟩], [⟨0, []⟩], 0, [], []⟩
      (.inst 0) (.error (.ret .nil)) rfl rfl (Or.inr ⟨.nil, rfl⟩)
  · exact (c1_initializer_law 6
      ⟨[⟨[], none⟩],
       [⟨.mk (tok .identifier "init") [] [.returnS (tok .returnK "return") none], 0, true⟩],
       [⟨"K", none, [("init", 0)]⟩], [], 0, [], []⟩
      [] 0 0 ⟨"K", none, [("init", 0)]⟩
      ⟨.mk (tok .identifier "init") [] [.returnS (tok .returnK "return") none], 0, true⟩
      (tok .identifier "K") (tok .identifier "init") (tok .returnK "return")
      [] [] [] [] [] (.lit .nil) none initR rfl rfl rfl rfl).2.1
      0 ⟨.mk (tok .identifier "init") [] [.returnS (tok .returnK "return") none], 0, true⟩
      (.inst 0)
      ⟨[⟨[], none⟩, ⟨[("this", .inst 0)], some 0⟩, ⟨[], some 1⟩],
       [⟨.mk (tok .identifier "init") [] [.returnS (tok .returnK "return") none], 0, true⟩,
        ⟨.mk (tok .identifier "init") [] [.returnS (tok .returnK "return") none], 1, true⟩],
       [⟨"K", none, [("init", 0)]⟩], [⟨0, []⟩], 0, [], []⟩
      rfl rfl rfl
  · exact (c1_initializer_law 0
      ⟨[⟨[], none⟩],
       [⟨.mk (tok .identifier "init") [] [.returnS (tok .returnK "return") none], 0, true⟩],
       [⟨"K", none, [("init", 0)]⟩], [], 0, [], []⟩
      [] 0 0 ⟨"K", none, [("init", 0)]⟩
      ⟨.mk (tok .identifier "init") [] [.returnS (tok .returnK "return") none], 0, true⟩
      (tok .identifier "K") (tok .identifier "init") (tok .returnK "return")
      [] [] [] [] [] (.lit .nil) none initR rfl rfl rfl rfl).2.2.2

end Rift
